import Mathlib

/-!
# ProcCL: a shallow embedding of `Processor`

The development follows `src/Processor.cpp` and `src/Processor.h`.

* Bytes (`char`) are naturals (`Nat`); the code only copies and compares them.
* `unsigned int` values are naturals reduced modulo `2^32` where the C++
  expression can wrap, `size_t` values modulo `2^64`.
* A `std::istream` is the list of unread bytes together with `eofbit` and
  `failbit`; the extraction operators follow the C++11 library rules
  (a failed sentry leaves the target untouched, a failed numeric parse
  stores `0`, an overflowing one stores the maximum).
* Locals that the C++ code leaves uninitialised are explicit parameters
  (`Uninit`, `Env.sizes0`): every value they may hold is covered.
* The OpenCL runtime and the file system are an environment `Env`; every
  runtime call is recorded in a trace.
-/

namespace ProcCL

/-! ## Basic types -/

/-- Largest `unsigned int`. -/
def UINT_MAX : Nat := 4294967295

/-- Number of `unsigned int` values, `2^32`. -/
def UINT_SIZE : Nat := 4294967296

/-- Number of `size_t` values, `2^64`. -/
def SIZE_T_SIZE : Nat := 18446744073709551616

/-- The error raised by `throwError` (a `std::runtime_error` carrying the
message) or by `checkError` (whose message is "OpenCL call failed with error "
followed by the name of the status code). -/
inductive ProcError where
  | msg (text : String)
  | openCL (status : Int)
  deriving DecidableEq, Repr

/-- How a piece of code ends: normally, by raising an error, by reading
outside a vector (undefined behaviour), or not at all (the loop fuel ran
out). -/
inductive Res (α : Type) where
  | ok (a : α)
  | throw (e : ProcError)
  | undefined
  | diverge
  deriving DecidableEq, Repr

/-- The `Image` of `Processor.h`: pixel bytes, width, height. -/
structure Image where
  pixel : List Nat
  width : Nat
  height : Nat
  deriving DecidableEq, Repr

/-! ## A model of `std::istream` -/

/-- An input stream: unread bytes and the two state bits the code can set. -/
structure IStream where
  buf : List Nat
  eofbit : Bool
  failbit : Bool
  deriving DecidableEq, Repr

/-- A freshly opened stream over the given bytes. -/
def IStream.open (bytes : List Nat) : IStream := ⟨bytes, false, false⟩

/-- The `good()` test. -/
def IStream.good (s : IStream) : Bool := !s.eofbit && !s.failbit

/-- The `isspace` test in the "C" locale. -/
def isspace (c : Nat) : Bool :=
  c == 32 || c == 9 || c == 10 || c == 11 || c == 12 || c == 13

/-- Decimal digit test. -/
def isdigit (c : Nat) : Bool := decide (48 ≤ c) && decide (c ≤ 57)

/-- The `istream::sentry`: fails (setting `failbit`) on a stream that is not
good; otherwise, unless `noskipws`, discards leading white space and fails
with `eofbit | failbit` when that reaches the end of the input. -/
def IStream.sentry (noskipws : Bool) (s : IStream) : Bool × IStream :=
  if s.good then
    if noskipws then (true, s)
    else
      match s.buf.dropWhile isspace with
      | [] => (false, ⟨[], true, true⟩)
      | c :: rest => (true, ⟨c :: rest, s.eofbit, s.failbit⟩)
  else (false, ⟨s.buf, s.eofbit, true⟩)

/-- The extraction `in >> str` for a `std::string`: a maximal run of
non-space bytes after leading white space. -/
def extractString (s : IStream) (str : List Nat) : IStream × List Nat :=
  match s.sentry false with
  | (false, s1) => (s1, str)
  | (true, s1) =>
    let tok := s1.buf.takeWhile (fun c => !isspace c)
    let rest := s1.buf.dropWhile (fun c => !isspace c)
    (⟨rest, rest.isEmpty, tok.isEmpty⟩, tok)

/-- The call `getline(in, str)`: bytes up to the next newline, which is
consumed and not stored. -/
def getline (s : IStream) (str : List Nat) : IStream × List Nat :=
  match s.sentry true with
  | (false, s1) => (s1, str)
  | (true, s1) =>
    let line := s1.buf.takeWhile (fun c => c != 10)
    match s1.buf.dropWhile (fun c => c != 10) with
    | [] => (⟨[], true, line.isEmpty⟩, line)
    | _ :: rest => (⟨rest, s1.eofbit, s1.failbit⟩, line)

/-- Value of a run of decimal digits, most significant first. -/
def digitsValue (ds : List Nat) : Nat := ds.foldl (fun acc d => acc * 10 + (d - 48)) 0

/-- The extraction `in >> v` for an `unsigned int`: optional sign, decimal
digits. No digit: `0` is stored and `failbit` set. Magnitude above
`UINT_MAX`: `UINT_MAX` is stored and `failbit` set. A minus sign negates
modulo `2^32`. -/
def extractUnsigned (s : IStream) (v : Nat) : IStream × Nat :=
  match s.sentry false with
  | (false, s1) => (s1, v)
  | (true, s1) =>
    let signed : Bool × List Nat :=
      match s1.buf with
      | 45 :: r => (true, r)
      | 43 :: r => (false, r)
      | b => (false, b)
    let ds := signed.2.takeWhile isdigit
    let rest := signed.2.dropWhile isdigit
    if ds.isEmpty then (⟨rest, rest.isEmpty, true⟩, 0)
    else if UINT_MAX < digitsValue ds then (⟨rest, rest.isEmpty, true⟩, UINT_MAX)
    else (⟨rest, rest.isEmpty, false⟩,
          if signed.1 then (UINT_SIZE - digitsValue ds) % UINT_SIZE else digitsValue ds)

/-- The call `in.read(data, n)` into a buffer currently holding `data`: the
bytes read replace the front of the buffer; a short read sets
`eofbit | failbit`. -/
def IStream.read (s : IStream) (n : Nat) (data : List Nat) : IStream × List Nat :=
  match s.sentry true with
  | (false, s1) => (s1, data)
  | (true, s1) =>
    let got := s1.buf.take n
    if got.length < n then (⟨[], true, true⟩, got ++ data.drop got.length)
    else (⟨s1.buf.drop n, s1.eofbit, s1.failbit⟩, got)

/-! ## Decimal output -/

/-- Decimal digits of `n`, most significant first, in front of `acc`. -/
def decimalAux : Nat → Nat → List Nat → List Nat
  | 0, _, acc => acc
  | fuel + 1, n, acc =>
    if n < 10 then (48 + n) :: acc
    else decimalAux fuel (n / 10) ((48 + n % 10) :: acc)

/-- What `out << n` writes for an `unsigned int`. -/
def printUnsigned (n : Nat) : List Nat := decimalAux (n + 1) n []

/-! ## The image codec -/

/-- The values held by the locals `width`, `height` and `maxColor` of
`loadImage` before anything is stored in them. -/
structure Uninit where
  width : Nat
  height : Nat
  maxColor : Nat
  deriving DecidableEq, Repr

/-- The literal "P6". -/
def magicP6 : List Nat := [80, 54]

/-- The comment-skipping loop of `loadImage`: read lines until one is
non-empty and does not start with `#`. Each unit of fuel is one iteration;
`none` when the fuel runs out. -/
def skipComments : Nat → IStream → List Nat → Option (IStream × List Nat)
  | 0, _, _ => none
  | fuel + 1, s, str =>
    match getline s str with
    | (s1, []) => skipComments fuel s1 []
    | (s1, c :: cs) => if c != 35 then some (s1, c :: cs) else skipComments fuel s1 (c :: cs)

/-- The function `Processor::loadImage`. `file` is the content of the file at
`path`, `none` when it cannot be opened. -/
def loadImage (fuel : Nat) (u : Uninit) (path : String) (file : Option (List Nat)) :
    Res Image :=
  match file with
  | none => .throw (.msg ("Cannot open image '" ++ path ++ "'"))
  | some bytes =>
    match extractString (IStream.open bytes) [] with
    | (in1, s) =>
      if s ≠ magicP6 then
        .throw (.msg ("Bad image format for '" ++ path ++ "', only PPM supported"))
      else
        match skipComments fuel in1 s with
        | none => .diverge
        | some (in2, line) =>
          match extractUnsigned (IStream.open line) u.width with
          | (str1, width) =>
            match extractUnsigned str1 u.height, extractUnsigned in2 u.maxColor with
            | (_, height), (in3, maxColor) =>
              if maxColor ≠ 255 then
                .throw (.msg ("Bad max color for '" ++ path ++ "', should be 255"))
              else
                match getline in3 [] with
                | (in4, _) =>
                  let n := (width * height * 3) % UINT_SIZE
                  .ok ⟨(in4.read n (List.replicate n 0)).2, width, height⟩

/-- The bytes `Processor::saveImage` writes for `img`. -/
def ppmBytes (img : Image) : List Nat :=
  [80, 54, 10] ++ printUnsigned img.width ++ [32] ++ printUnsigned img.height ++ [10]
    ++ [50, 53, 53, 10] ++ img.pixel

/-- The pixel loop of `RGBtoRGBA`: three bytes in, four bytes out; `none`
when `pixel[i + 1]` or `pixel[i + 2]` lies past the end. -/
def rgbToRgbaPixels : List Nat → Option (List Nat)
  | [] => some []
  | a :: b :: c :: rest => (rgbToRgbaPixels rest).map (fun out => a :: b :: c :: 0 :: out)
  | _ => none

/-- The pixel loop of `RGBAtoRGB`: of every four bytes the first three are
kept; `none` when `pixel[i + 1]` or `pixel[i + 2]` lies past the end. -/
def rgbaToRgbPixels : List Nat → Option (List Nat)
  | [] => some []
  | [a, b, c] => some [a, b, c]
  | a :: b :: c :: _ :: rest => (rgbaToRgbPixels rest).map (fun out => a :: b :: c :: out)
  | _ => none

/-- The function `Processor::RGBtoRGBA`. -/
def RGBtoRGBA (input : Image) : Option Image :=
  (rgbToRgbaPixels input.pixel).map (fun p => ⟨p, input.width, input.height⟩)

/-- The function `Processor::RGBAtoRGB`. -/
def RGBAtoRGB (input : Image) : Option Image :=
  (rgbaToRgbPixels input.pixel).map (fun p => ⟨p, input.width, input.height⟩)

/-! ## Argument descriptors -/

/-- The enum `KernelArg::Type`. -/
inductive ArgType where
  | RAW
  | BUFFER
  | IMAGE
  deriving DecidableEq, Repr

/-- The enum `KernelArg::Direction`. -/
inductive Direction where
  | STATIC
  | INPUT
  | OUTPUT
  deriving DecidableEq, Repr

/-- The struct `KernelArg`. `data` stands for the host pointer: for an IMAGE
argument the C string it points to (a file path), otherwise a name for the
host memory, whose content the code never inspects. -/
structure KernelArg where
  data : String
  size : Nat
  type : ArgType
  copy : Bool
  direction : Direction
  deriving DecidableEq, Repr

/-- The struct `InternalArg`: a `cl_mem` handle, `0` for `nullptr`. -/
structure InternalArg where
  buffer : Nat
  deriving DecidableEq, Repr

/-- The struct `InputArg`: `sizes i` is `sizes[i]`. -/
structure InputArg where
  dim : Nat
  sizes : Nat → Nat

/-- The struct `OutputArg`. -/
structure OutputArg where
  type : ArgType
  buffer : Nat
  data : String
  size : Nat
  deriving DecidableEq, Repr

/-- The enum `DeviceType`. -/
inductive DeviceType where
  | All_Devices
  | CPU_Devices
  | GPU_Devices
  deriving DecidableEq, Repr

/-! ## The OpenCL runtime and the file system -/

/-- Flag values of `CL/cl.h`. -/
def CL_MEM_WRITE_ONLY : Nat := 2

/-- Flag values of `CL/cl.h`. -/
def CL_MEM_READ_ONLY : Nat := 4

/-- Flag values of `CL/cl.h`. -/
def CL_MEM_COPY_HOST_PTR : Nat := 32

/-- Device classes of `CL/cl.h`. -/
def CL_DEVICE_TYPE_CPU : Nat := 2

/-- Device classes of `CL/cl.h`. -/
def CL_DEVICE_TYPE_GPU : Nat := 4

/-- Device classes of `CL/cl.h`. -/
def CL_DEVICE_TYPE_ALL : Nat := 4294967295

/-- The value of `sizeof(cl_mem)`, a pointer. -/
def sizeofClMem : Nat := 8

/-- What `clSetKernelArg` is given as value: the address of a memory handle
or the raw host pointer. -/
inductive ArgValue where
  | mem (buffer : Nat)
  | raw (data : String)
  deriving DecidableEq, Repr

/-- One call into the OpenCL runtime, with the arguments the code passes and,
for the creating calls, the handle `h` the runtime returned (`0` on
failure). -/
inductive Event where
  | getPlatformIDs
  | getDeviceIDs (platform deviceType : Nat)
  | createContext (platform : Nat) (devices : List Nat) (h : Nat)
  | createProgramWithSource (context : Nat) (source : List Nat) (h : Nat)
  | buildProgram (program : Nat) (devices : List Nat) (options : String)
  | createCommandQueue (context device : Nat) (h : Nat)
  | createKernel (program : Nat) (name : String) (h : Nat)
  | createBuffer (flags size : Nat) (hostPtr : Option String) (h : Nat)
  | enqueueWriteBuffer (buffer size : Nat) (hostPtr : String)
  | createImage2D (flags width height : Nat) (hostPtr : Option (List Nat)) (h : Nat)
  | enqueueWriteImage (image width height : Nat) (pixels : List Nat)
  | setKernelArg (kernel index size : Nat) (value : ArgValue)
  | enqueueNDRangeKernel (kernel dim : Nat) (sizes : List Nat)
  | enqueueReadBuffer (buffer size : Nat) (hostPtr : String)
  | enqueueReadImage (image width height : Nat)
  | releaseMemObject (h : Nat)
  | releaseKernel (h : Nat)
  deriving DecidableEq, Repr

/-- Everything the code does to the outside: the runtime calls made so far,
oldest first, and the files written. -/
structure World where
  calls : List Event
  files : List (String × List Nat)
  deriving DecidableEq, Repr

/-- The surroundings of a run. `status k` is the status the runtime returns
from the `k`-th recorded call (`0` is `CL_SUCCESS`); `devicePixel k i` is
byte `i` of what a successful `clEnqueueReadImage`, made as call `k`, stores;
`file p` is the content of the file at path `p` when it can be opened for
reading, `writable p` whether it can be opened for writing; `uninit` and
`sizes0` are the contents of uninitialised memory. -/
structure Env where
  status : Nat → Int
  devicePixel : Nat → Nat → Nat
  file : String → Option (List Nat)
  writable : String → Bool
  platforms : List Nat
  devices : Nat → Nat → List Nat
  uninit : Uninit
  sizes0 : Nat → Nat

/-- The data members of `Processor`; handles are naturals, `0` for
`nullptr`. -/
structure Processor where
  kernelPath : String
  kernelArgs : String
  deviceType : Nat
  platforms : List Nat
  currentPlatform : Nat
  devices : List Nat
  currentDevice : Nat
  context : Nat
  program : Nat
  queue : Nat
  deriving DecidableEq, Repr

/-- A computation that makes runtime calls and may raise. The world is kept
when an error is raised. -/
def Proc (α : Type) : Type := World → Res α × World

/-- Sequencing: the second part runs only when the first ends normally. -/
def Proc.bind {α β : Type} (m : Proc α) (f : α → Proc β) : Proc β := fun w =>
  match m w with
  | (.ok a, w1) => f a w1
  | (.throw e, w1) => (.throw e, w1)
  | (.undefined, w1) => (.undefined, w1)
  | (.diverge, w1) => (.diverge, w1)

/-- Normal return. -/
def Proc.pure {α : Type} (a : α) : Proc α := fun w => (.ok a, w)

instance : Monad Proc where
  pure := Proc.pure
  bind := Proc.bind

/-- The outcome of a pure piece of code inside a computation. -/
def liftRes {α : Type} (r : Res α) : Proc α := fun w => (r, w)

/-- The method `Processor::throwError` (logging left out). -/
def Processor.throwError {α : Type} (message : String) : Proc α := fun w => (.throw (.msg message), w)

/-- The method `Processor::checkError`. -/
def Processor.checkError (error : Int) : Proc Unit := fun w =>
  if error = 0 then (.ok (), w) else (.throw (.openCL error), w)

/-- A runtime call that creates an object: its handle is fresh and non-null
when the status is `CL_SUCCESS`, null otherwise. -/
def create (env : Env) (ev : Nat → Event) : Proc (Nat × Int) := fun w =>
  let status := env.status w.calls.length
  let h := if status = 0 then w.calls.length + 1 else 0
  (.ok (h, status), ⟨w.calls ++ [ev h], w.files⟩)

/-- A runtime call that returns only a status. -/
def call (env : Env) (ev : Event) : Proc Int := fun w =>
  (.ok (env.status w.calls.length), ⟨w.calls ++ [ev], w.files⟩)

/-- The call `Processor::saveImage`. -/
def saveImage (env : Env) (img : Image) (path : String) : Proc Unit := fun w =>
  if env.writable path then (.ok (), ⟨w.calls, w.files ++ [(path, ppmBytes img)]⟩)
  else (.throw (.msg ("Cannot save image '" ++ path ++ "'")), w)

/-- The assignment `sizes[i] = v`. -/
def setSize (sizes : Nat → Nat) (i v : Nat) : Nat → Nat := fun j => if j = i then v else sizes j

/-! ## Construction -/

/-- The function `Processor::LookupDevice`. -/
def Processor.LookupDevice (deviceType : DeviceType) : Nat :=
  match deviceType with
  | .All_Devices => CL_DEVICE_TYPE_ALL
  | .CPU_Devices => CL_DEVICE_TYPE_CPU
  | .GPU_Devices => CL_DEVICE_TYPE_GPU

/-- The indexing `v[i]` of a `std::vector`: undefined past the end. -/
def vectorAt (v : List Nat) (i : Nat) : Proc Nat :=
  match v.get? i with
  | some x => Proc.pure x
  | none => liftRes .undefined

/-- The method `Processor::loadPlateforms` (logging left out). A failing
count query leaves the count at `0`, a failing fill leaves null handles. -/
def Processor.loadPlateforms (env : Env) : Proc (List Nat) := do
  let status ← call env .getPlatformIDs
  let platformIdCount := if status = 0 then env.platforms.length else 0
  if platformIdCount = 0 then
    Processor.throwError "No OpenCL platform found"
  else
    let status2 ← call env .getPlatformIDs
    pure (if status2 = 0 then env.platforms else List.replicate platformIdCount 0)

/-- The method `Processor::loadDevices` (logging left out). -/
def Processor.loadDevices (env : Env) (platformId deviceType : Nat) : Proc (List Nat) := do
  let status ← call env (.getDeviceIDs platformId deviceType)
  let deviceIdCount := if status = 0 then (env.devices platformId deviceType).length else 0
  if deviceIdCount = 0 then
    Processor.throwError "No OpenCL devices found for given device type "
  else
    let status2 ← call env (.getDeviceIDs platformId deviceType)
    pure (if status2 = 0 then env.devices platformId deviceType
          else List.replicate deviceIdCount 0)

/-- The method `Processor::createContext`. -/
def Processor.createContext (env : Env) (devices : List Nat) (platformId : Nat) : Proc Nat := do
  let r ← create env (.createContext platformId devices)
  Processor.checkError r.2
  pure r.1

/-- The method `Processor::loadKernel`. -/
def Processor.loadKernel (env : Env) (path : String) : Proc (List Nat) :=
  match env.file path with
  | none => Processor.throwError ("Cannot find kernel file '" ++ path ++ "'")
  | some source => Proc.pure source

/-- The method `Processor::createProgram` (build log left out). -/
def Processor.createProgram (env : Env) (devices : List Nat) (context : Nat)
    (kernelPath kernelArgs : String) : Proc Nat := do
  let source ← Processor.loadKernel env kernelPath
  let r ← create env (.createProgramWithSource context source)
  Processor.checkError r.2
  let error ← call env (.buildProgram r.1 devices kernelArgs)
  Processor.checkError error
  pure r.1

/-- The method `Processor::createCommandQueue`. -/
def Processor.createCommandQueue (env : Env) (deviceId context : Nat) : Proc Nat := do
  let r ← create env (.createCommandQueue context deviceId)
  Processor.checkError r.2
  pure r.1

/-- The method `Processor::init`. -/
def Processor.init (env : Env) (self : Processor) (selectedPlatform selectedDevice : Nat) :
    Proc Processor := do
  let platforms ← Processor.loadPlateforms env
  let currentPlatform ← vectorAt platforms selectedPlatform
  let devices ← Processor.loadDevices env currentPlatform self.deviceType
  let currentDevice ← vectorAt devices selectedDevice
  let context ← Processor.createContext env devices currentPlatform
  let program ← Processor.createProgram env devices context self.kernelPath self.kernelArgs
  let queue ← Processor.createCommandQueue env currentDevice context
  pure ⟨self.kernelPath, self.kernelArgs, self.deviceType, platforms, currentPlatform,
        devices, currentDevice, context, program, queue⟩

/-- The constructor `Processor::Processor`. -/
def Processor.new (env : Env) (kernelPath : String) (deviceType : DeviceType)
    (kernelArgs : String) : Proc Processor :=
  Processor.init env
    ⟨kernelPath, kernelArgs, Processor.LookupDevice deviceType, [], 0, [], 0, 0, 0, 0⟩ 0 1

/-! ## Argument binding and dispatch -/

/-- The locals of `prepareArguments` that outlive one loop iteration. -/
structure BindState where
  input : InputArg
  output : OutputArg
  internalArgs : List InternalArg

/-- The BUFFER branch of the loop body of `prepareArguments`; returns
`buffer`, `error` and `input` as they are at the end of the branch. -/
def Processor.prepareBuffer (env : Env) (arg : KernelArg) (flags : Nat) (input : InputArg) :
    Proc (Nat × Int × InputArg) := do
  let r ← create env (.createBuffer flags arg.size (if arg.copy then some arg.data else none))
  let error ←
    (if arg.copy then Proc.pure r.2
     else do
      Processor.checkError r.2
      call env (.enqueueWriteBuffer r.1 arg.size arg.data))
  let input1 : InputArg :=
    if arg.direction = .INPUT then ⟨1, setSize (setSize input.sizes 0 arg.size) 1 0⟩ else input
  pure (r.1, error, input1)

/-- The image the IMAGE branch works with: for an OUTPUT argument
`Image(input.sizes[0], input.sizes[1])`, the sizes converted to
`unsigned int`; otherwise `RGBtoRGBA(loadImage(path))`. -/
def Processor.argumentImage (env : Env) (fuel : Nat) (arg : KernelArg) (input : InputArg) :
    Res Image :=
  if arg.direction = .OUTPUT then
    .ok ⟨[], input.sizes 0 % UINT_SIZE, input.sizes 1 % UINT_SIZE⟩
  else
    match loadImage fuel env.uninit arg.data (env.file arg.data) with
    | .ok img =>
      match RGBtoRGBA img with
      | some rgba => .ok rgba
      | none => .undefined
    | .throw e => .throw e
    | .undefined => .undefined
    | .diverge => .diverge

/-- The IMAGE branch of the loop body of `prepareArguments`. -/
def Processor.prepareImage (env : Env) (fuel : Nat) (arg : KernelArg) (flags : Nat)
    (input : InputArg) : Proc (Nat × Int × InputArg) := do
  let flags1 :=
    if arg.direction = .OUTPUT then flags &&& (UINT_MAX - CL_MEM_COPY_HOST_PTR) else flags
  let image ← liftRes (Processor.argumentImage env fuel arg input)
  let imgData : Option (List Nat) :=
    if arg.direction = .OUTPUT then none else some image.pixel
  let r ← create env
    (.createImage2D flags1 image.width image.height (if arg.copy then imgData else none))
  let error ←
    (if !arg.copy && decide (arg.direction ≠ .OUTPUT) then do
      Processor.checkError r.2
      call env (.enqueueWriteImage r.1 image.width image.height image.pixel)
     else Proc.pure r.2)
  let input1 : InputArg :=
    if arg.direction = .INPUT then
      ⟨2, setSize (setSize (setSize input.sizes 0 image.width) 1 image.height) 2 0⟩
    else input
  pure (r.1, error, input1)

/-- One iteration of the loop of `prepareArguments`, for the argument `arg`
at position `index`. -/
def Processor.prepareArgument (env : Env) (fuel : Nat) (kernel index : Nat) (arg : KernelArg)
    (st : BindState) : Proc BindState :=
  if arg.type ≠ .RAW then do
    let flags : Nat :=
      (if arg.direction = .STATIC ∨ arg.direction = .INPUT then CL_MEM_READ_ONLY
       else CL_MEM_WRITE_ONLY) ||| (if arg.copy then CL_MEM_COPY_HOST_PTR else 0)
    let r ←
      (if arg.type = .BUFFER then Processor.prepareBuffer env arg flags st.input
       else Processor.prepareImage env fuel arg flags st.input)
    Processor.checkError r.2.1
    let output : OutputArg :=
      if arg.direction = .OUTPUT then ⟨arg.type, r.1, arg.data, arg.size⟩ else st.output
    let error ← call env (.setKernelArg kernel index sizeofClMem (.mem r.1))
    Processor.checkError error
    pure ⟨r.2.2, output, st.internalArgs ++ [⟨r.1⟩]⟩
  else do
    let error ← call env (.setKernelArg kernel index arg.size (.raw arg.data))
    Processor.checkError error
    pure st

/-- The loop of `prepareArguments` over the arguments from position `index`
on. -/
def Processor.prepareLoop (env : Env) (fuel : Nat) (kernel : Nat) :
    List KernelArg → Nat → BindState → Proc BindState
  | [], _, st => Proc.pure st
  | arg :: rest, index, st =>
    Proc.bind (Processor.prepareArgument env fuel kernel index arg st)
      (fun st1 => Processor.prepareLoop env fuel kernel rest ((index + 1) % UINT_SIZE) st1)

/-- The method `Processor::prepareArguments`. -/
def Processor.prepareArguments (env : Env) (fuel : Nat) (kernel : Nat) (args : List KernelArg)
    (st : BindState) : Proc BindState := do
  let st1 ← Processor.prepareLoop env fuel kernel args 0 st
  if st1.input.dim = 0 then
    Processor.throwError "No input parameter specified"
  else if st1.output.buffer = 0 then
    Processor.throwError "No output parameter specified"
  else
    pure st1

/-- The call `clEnqueueReadImage` into a zero-filled buffer of `n` bytes:
returns the status and the buffer afterwards, which holds the device data
when the call succeeds. -/
def readImage (env : Env) (image width height n : Nat) : Proc (Int × List Nat) := fun w =>
  let status := env.status w.calls.length
  let pixel : List Nat :=
    if status = 0 then (List.range n).map (env.devicePixel w.calls.length)
    else List.replicate n 0
  (.ok (status, pixel), ⟨w.calls ++ [.enqueueReadImage image width height], w.files⟩)

/-- The read-back step of `execute`: returns the value of `error` after
it. -/
def Processor.readOutput (env : Env) (input : InputArg) (output : OutputArg) : Proc Int :=
  if output.type = .BUFFER then
    call env (.enqueueReadBuffer output.buffer output.size output.data)
  else if output.type = .IMAGE then do
    let width := input.sizes 0 % UINT_SIZE
    let height := input.sizes 1 % UINT_SIZE
    let r ← readImage env output.buffer width height
      ((input.sizes 0 * input.sizes 1 * 4) % SIZE_T_SIZE)
    let rgb ← liftRes
      (match RGBAtoRGB ⟨r.2, width, height⟩ with
       | some img => Res.ok img
       | none => Res.undefined)
    saveImage env rgb output.data
    pure r.1
  else Proc.pure 0

/-- The release loop at the end of `execute`. -/
def Processor.releaseArgs (env : Env) : List InternalArg → Proc Unit
  | [] => Proc.pure ()
  | arg :: rest =>
    Proc.bind (call env (.releaseMemObject arg.buffer)) (fun _ => Processor.releaseArgs env rest)

/-- The locals `input`, `output` and `internalArgs` as `execute` sets them up
before binding. -/
def initialState (env : Env) : BindState :=
  ⟨⟨0, env.sizes0⟩, ⟨.RAW, 0, "", 0⟩, []⟩

/-- The second half of `execute`, from the dispatch of the kernel to the
release of the per-call objects. -/
def Processor.dispatch (env : Env) (kernel : Nat) (st : BindState) : Proc Unit := do
  let e ← call env (.enqueueNDRangeKernel kernel st.input.dim
    ((List.range st.input.dim).map st.input.sizes))
  Processor.checkError e
  let error ← Processor.readOutput env st.input st.output
  Processor.checkError error
  Processor.releaseArgs env st.internalArgs
  let _status ← call env (.releaseKernel kernel)
  pure ()

/-- The method `Processor::execute`. -/
def Processor.execute (env : Env) (fuel : Nat) (self : Processor) (kernelFunction : String)
    (args : List KernelArg) : Proc Unit := do
  let k ← create env (.createKernel self.program kernelFunction)
  Processor.checkError k.2
  let st ← Processor.prepareArguments env fuel k.1 args (initialState env)
  Processor.dispatch env k.1 st

/-- The first white-space delimited token of a file, empty when there is
none. -/
def firstToken (bytes : List Nat) : List Nat :=
  (bytes.dropWhile isspace).takeWhile (fun c => !isspace c)

/-! ## Specification vocabulary -/

/-- A statement about every run of a computation, whatever the runtime
answers: the calls it adds to the trace all satisfy `P`, and when it ends
normally with `a`, having added the calls `evs`, then `Q a evs` holds. -/
def Frame {α : Type} (P : Event → Prop) (m : Proc α) (Q : α → List Event → Prop) : Prop :=
  ∀ w : World, ∃ evs, (m w).2.calls = w.calls ++ evs ∧ (∀ e ∈ evs, P e) ∧
    ∀ a, (m w).1 = .ok a → Q a evs

/-- The file behind a non-OUTPUT IMAGE argument loads and converts. -/
def Loadable (env : Env) (fuel : Nat) (arg : KernelArg) : Prop :=
  arg.type = .IMAGE → arg.direction ≠ .OUTPUT →
    ∃ img rgba, loadImage fuel env.uninit arg.data (env.file arg.data) = .ok img ∧
      RGBtoRGBA img = some rgba

/-- The calls one iteration of the loop of `prepareArguments` can make for
`arg` when the recorded domain is `input`: an image is created write-only,
without host data and with the recorded extents exactly when `arg` is an
OUTPUT argument. -/
def BindEvent (arg : KernelArg) (input : InputArg) (e : Event) : Prop :=
  match e with
  | .createBuffer _ _ _ _ => True
  | .enqueueWriteBuffer _ _ _ => True
  | .enqueueWriteImage _ _ _ _ => True
  | .setKernelArg _ _ _ _ => True
  | .createImage2D flags width height hostPtr _ =>
    arg.type = .IMAGE ∧
    if arg.direction = .OUTPUT then
      flags = CL_MEM_WRITE_ONLY ∧ width = input.sizes 0 % UINT_SIZE ∧
        height = input.sizes 1 % UINT_SIZE ∧ hostPtr = none
    else flags ≠ CL_MEM_WRITE_ONLY
  | _ => False

/-- The kernel dispatch call. -/
def Event.isDispatch : Event → Bool
  | .enqueueNDRangeKernel _ _ _ => true
  | _ => false

/-- The read-back calls. -/
def Event.isRead : Event → Bool
  | .enqueueReadBuffer _ _ _ => true
  | .enqueueReadImage _ _ _ => true
  | _ => false

/-- The calls `execute` makes after the dispatch. -/
def Event.isTail : Event → Bool
  | .enqueueReadBuffer _ _ _ => true
  | .enqueueReadImage _ _ _ => true
  | .releaseMemObject _ => true
  | .releaseKernel _ => true
  | _ => false

/-- What one iteration of the loop of `prepareArguments` for `arg` has done
when it ends normally, taking the locals from `st` to `st1` and adding the
calls `evs`. -/
def StepPost (env : Env) (fuel : Nat) (arg : KernelArg) (st st1 : BindState)
    (evs : List Event) : Prop :=
  ((arg.direction ≠ .INPUT ∨ arg.type = .RAW) → st1.input = st.input) ∧
  ((arg.direction ≠ .OUTPUT ∨ arg.type = .RAW) → st1.output = st.output) ∧
  (arg.direction = .INPUT → arg.type = .BUFFER →
    st1.input.dim = 1 ∧ st1.input.sizes 0 = arg.size) ∧
  (arg.direction = .INPUT → arg.type = .IMAGE →
    ∃ image, Processor.argumentImage env fuel arg st.input = .ok image ∧
      st1.input.dim = 2 ∧ st1.input.sizes 0 = image.width ∧
      st1.input.sizes 1 = image.height) ∧
  (arg.direction = .OUTPUT → arg.type ≠ .RAW →
    st1.output.buffer ≠ 0 ∧ st1.output.type = arg.type) ∧
  (arg.direction = .OUTPUT → arg.type = .IMAGE →
    Event.createImage2D CL_MEM_WRITE_ONLY (st.input.sizes 0 % UINT_SIZE)
      (st.input.sizes 1 % UINT_SIZE) none st1.output.buffer ∈ evs)

/-- The creation of a write-only image has the extents `width` x `height`. -/
def OutputImageSized (width height : Nat) (e : Event) : Prop :=
  ∀ w h host hd, e = Event.createImage2D CL_MEM_WRITE_ONLY w h host hd → w = width ∧ h = height

/-! ## Concrete runs -/

/-- A one-pixel RGB image. -/
def onePixel : Image := ⟨[1, 2, 3], 1, 1⟩

/-- A world in which no call has been made yet. -/
def emptyWorld : World := ⟨[], []⟩

/-- A constructed processor: program handle 11 on context 10, queue 12. -/
def sampleProcessor : Processor :=
  ⟨"kernel.cl", "", CL_DEVICE_TYPE_ALL, [1], 1, [5, 6], 6, 10, 11, 12⟩

/-- Surroundings in which every runtime call succeeds, the file `in.ppm`
holds `onePixel` as `saveImage` writes it, no other file can be read, every
file can be written, and uninitialised memory holds zeros. -/
def sampleEnv : Env :=
  ⟨fun _ => 0, fun _ _ => 9,
   fun p => if p = "in.ppm" then some (ppmBytes onePixel) else none,
   fun _ => true, [1], fun _ _ => [5, 6], ⟨0, 0, 0⟩, fun _ => 0⟩

/-- As `sampleEnv`, but the sixth runtime call (number 5) returns
`CL_OUT_OF_RESOURCES`. -/
def failingEnv : Env :=
  ⟨fun k => if k = 5 then -5 else 0, fun _ _ => 9,
   fun p => if p = "in.ppm" then some (ppmBytes onePixel) else none,
   fun _ => true, [1], fun _ _ => [5, 6], ⟨0, 0, 0⟩, fun _ => 0⟩

/-- The image arguments of the blur example of `main.cpp`. -/
def imageIn : KernelArg := ⟨"in.ppm", 0, .IMAGE, false, .INPUT⟩

/-- The image arguments of the blur example of `main.cpp`. -/
def imageOut : KernelArg := ⟨"out.ppm", 0, .IMAGE, false, .OUTPUT⟩

/-- The buffer arguments of the scaling example of `main.cpp`. -/
def bufferIn : KernelArg := ⟨"input", 20, .BUFFER, true, .INPUT⟩

/-- The buffer arguments of the scaling example of `main.cpp`. -/
def bufferOut : KernelArg := ⟨"output", 20, .BUFFER, true, .OUTPUT⟩

/-- A read-only table that is neither input nor output. -/
def bufferStatic : KernelArg := ⟨"filter", 16, .BUFFER, false, .STATIC⟩

/-- The memory object a call creates, if it creates one. -/
def Event.createdMem : Event → Option Nat
  | .createBuffer _ _ _ h => if h = 0 then none else some h
  | .createImage2D _ _ _ _ h => if h = 0 then none else some h
  | _ => none

/-- The memory object a call releases, if it releases one. -/
def Event.releasedMem : Event → Option Nat
  | .releaseMemObject h => some h
  | _ => none

/-- The kernel a call creates, if it creates one. -/
def Event.createdKernel : Event → Option Nat
  | .createKernel _ _ h => if h = 0 then none else some h
  | _ => none

/-- The kernel a call releases, if it releases one. -/
def Event.releasedKernel : Event → Option Nat
  | .releaseKernel h => some h
  | _ => none

/-- The per-call objects a run has created and released, in the order of
the calls. -/
structure Ledger where
  createdMem : List Nat
  releasedMem : List Nat
  createdKernels : List Nat
  releasedKernels : List Nat
  deriving DecidableEq, Repr

/-- The ledger of a list of calls. -/
def ledger (evs : List Event) : Ledger :=
  ⟨evs.filterMap Event.createdMem, evs.filterMap Event.releasedMem,
   evs.filterMap Event.createdKernel, evs.filterMap Event.releasedKernel⟩

/-- The platform index the constructor passes to `init`. -/
def constructorPlatform : Nat := 0

/-- The device index the constructor passes to `init`. -/
def constructorDevice : Nat := 1

/-- As `sampleEnv`, but the platform has exactly one device, and the kernel
file `kernel.cl` can be read. -/
def oneDeviceEnv : Env :=
  ⟨fun _ => 0, fun _ _ => 9,
   fun p => if p = "kernel.cl" then some [107] else none,
   fun _ => true, [1], fun _ _ => [5], ⟨0, 0, 0⟩, fun _ => 0⟩

/-! # Lemmas and theorems -/

/-! ## Pixel layout conversions -/

theorem rgb_rgba_pixels : ∀ l : List Nat, l.length % 3 = 0 →
    ∃ out, rgbToRgbaPixels l = some out ∧ rgbaToRgbPixels out = some l
  | [], _ => ⟨[], rfl, rfl⟩
  | [_], h => by simp at h
  | [_, _], h => by simp at h
  | a :: b :: c :: rest, h => by
    have h1 : rest.length % 3 = 0 := by
      simp only [List.length_cons] at h
      omega
    obtain ⟨out, e1, e2⟩ := rgb_rgba_pixels rest h1
    refine ⟨a :: b :: c :: 0 :: out, ?_, ?_⟩
    · simp [rgbToRgbaPixels, e1]
    · simp [rgbaToRgbPixels, e2]

theorem rgba_rgb_pixels : ∀ l : List Nat, l.length % 4 = 0 →
    ∃ mid out, rgbaToRgbPixels l = some mid ∧ rgbToRgbaPixels mid = some out ∧
      out.length = l.length ∧
      ∀ i, i < l.length → out[i]? = if i % 4 = 3 then some 0 else l[i]?
  | [], _ => ⟨[], [], rfl, rfl, rfl, by simp⟩
  | [_], h => by simp at h
  | [_, _], h => by simp at h
  | [_, _, _], h => by simp at h
  | a :: b :: c :: d :: rest, h => by
    have h1 : rest.length % 4 = 0 := by
      simp only [List.length_cons] at h
      omega
    obtain ⟨mid, out, e1, e2, e3, e4⟩ := rgba_rgb_pixels rest h1
    refine ⟨a :: b :: c :: mid, a :: b :: c :: 0 :: out, ?_, ?_, ?_, ?_⟩
    · simp [rgbaToRgbPixels, e1]
    · simp [rgbToRgbaPixels, e2]
    · simp [e3]
    · intro i hi
      match i, hi with
      | 0, _ => simp
      | 1, _ => simp
      | 2, _ => simp
      | 3, _ => simp
      | j + 4, hj =>
        have hj1 : j < rest.length := by
          simp only [List.length_cons] at hj
          omega
        have hm : (j + 4) % 4 = j % 4 := by omega
        simp only [List.getElem?_cons_succ, hm]
        exact e4 j hj1

/-! ## Decimal output and input -/

theorem digitsValue_snoc (ds : List Nat) (d : Nat) :
    digitsValue (ds ++ [d]) = digitsValue ds * 10 + (d - 48) := by
  simp [digitsValue, List.foldl_append]

theorem decimalAux_spec : ∀ (fuel n : Nat) (acc : List Nat), n < fuel →
    ∃ ds, decimalAux fuel n acc = ds ++ acc ∧ ds ≠ [] ∧
      (∀ x ∈ ds, isdigit x = true) ∧ digitsValue ds = n
  | 0, _, _, h => by omega
  | fuel + 1, n, acc, h => by
    by_cases h10 : n < 10
    · refine ⟨[48 + n], ?_, by simp, ?_, ?_⟩
      · simp [decimalAux, h10]
      · intro x hx
        simp only [List.mem_singleton] at hx
        subst hx
        simp only [isdigit, Bool.and_eq_true, decide_eq_true_eq]
        omega
      · simp [digitsValue]
    · have hlt : n / 10 < fuel := by omega
      obtain ⟨ds, e, _, hd, hv⟩ := decimalAux_spec fuel (n / 10) ((48 + n % 10) :: acc) hlt
      refine ⟨ds ++ [48 + n % 10], ?_, by simp, ?_, ?_⟩
      · simp [decimalAux, h10, e]
      · intro x hx
        rcases List.mem_append.mp hx with hx | hx
        · exact hd x hx
        · simp only [List.mem_singleton] at hx
          subst hx
          simp only [isdigit, Bool.and_eq_true, decide_eq_true_eq]
          omega
      · rw [digitsValue_snoc, hv]
        omega

theorem printUnsigned_spec (n : Nat) :
    ∃ d ds, printUnsigned n = d :: ds ∧ (∀ x ∈ d :: ds, isdigit x = true) ∧
      digitsValue (d :: ds) = n := by
  obtain ⟨l, e, hne, hd, hv⟩ := decimalAux_spec (n + 1) n [] (by omega)
  cases l with
  | nil => exact absurd rfl hne
  | cons d ds => exact ⟨d, ds, by simpa [printUnsigned] using e, hd, hv⟩

theorem takeWhile_run {p : Nat → Bool} : ∀ (l : List Nat) (c : Nat) (rest : List Nat),
    (∀ x ∈ l, p x = true) → p c = false → (l ++ c :: rest).takeWhile p = l
  | [], c, rest, _, hc => by simp [List.takeWhile, hc]
  | x :: l, c, rest, hl, hc => by
    have hx : p x = true := hl x (by simp)
    have ih := takeWhile_run l c rest (fun y hy => hl y (by simp [hy])) hc
    simp [List.takeWhile, hx, ih]

theorem dropWhile_run {p : Nat → Bool} : ∀ (l : List Nat) (c : Nat) (rest : List Nat),
    (∀ x ∈ l, p x = true) → p c = false → (l ++ c :: rest).dropWhile p = c :: rest
  | [], c, rest, _, hc => by simp [List.dropWhile, hc]
  | x :: l, c, rest, hl, hc => by
    have hx : p x = true := hl x (by simp)
    have ih := dropWhile_run l c rest (fun y hy => hl y (by simp [hy])) hc
    simp [List.dropWhile, hx, ih]

theorem takeWhile_all {p : Nat → Bool} : ∀ (l : List Nat),
    (∀ x ∈ l, p x = true) → l.takeWhile p = l
  | [], _ => rfl
  | x :: l, hl => by
    have hx : p x = true := hl x (by simp)
    simp [List.takeWhile, hx, takeWhile_all l (fun y hy => hl y (by simp [hy]))]

theorem dropWhile_all {p : Nat → Bool} : ∀ (l : List Nat),
    (∀ x ∈ l, p x = true) → l.dropWhile p = []
  | [], _ => rfl
  | x :: l, hl => by
    have hx : p x = true := hl x (by simp)
    simp [List.dropWhile, hx, dropWhile_all l (fun y hy => hl y (by simp [hy]))]

theorem isdigit_not_space {x : Nat} (h : isdigit x = true) : isspace x = false := by
  simp only [isdigit, Bool.and_eq_true, decide_eq_true_eq] at h
  simp only [isspace, Bool.or_eq_false_iff, beq_eq_false_iff_ne]
  omega

theorem isdigit_bounds {x : Nat} (h : isdigit x = true) : 48 ≤ x ∧ x ≤ 57 := by
  simpa [isdigit] using h

/-- Reading a run of digits that is followed by a byte that is no digit. -/
theorem extractUnsigned_run (d : Nat) (ds : List Nat) (c : Nat) (rest : List Nat) (v : Nat)
    (hd : ∀ x ∈ d :: ds, isdigit x = true) (hc : isdigit c = false)
    (hv : digitsValue (d :: ds) ≤ UINT_MAX) :
    extractUnsigned ⟨d :: ds ++ c :: rest, false, false⟩ v
      = (⟨c :: rest, false, false⟩, digitsValue (d :: ds)) := by
  have hd0 := hd d (by simp)
  have hb := isdigit_bounds hd0
  have hs := isdigit_not_space hd0
  have e1 : (d :: (ds ++ c :: rest)).dropWhile isspace = d :: (ds ++ c :: rest) := by
    simp [List.dropWhile, hs]
  have e2 := takeWhile_run (d :: ds) c rest hd hc
  have e3 := dropWhile_run (d :: ds) c rest hd hc
  simp only [List.cons_append] at e2 e3
  unfold extractUnsigned
  simp only [IStream.sentry, IStream.good, List.cons_append, e1, Bool.not_false, Bool.and_self,
    if_true, Bool.false_eq_true, if_false]
  have hsign : (match d :: (ds ++ c :: rest) with
      | 45 :: r => (true, r)
      | 43 :: r => (false, r)
      | b => (false, b)) = (false, d :: (ds ++ c :: rest)) := by
    split
    · rename_i heq; simp only [List.cons.injEq] at heq; omega
    · rename_i heq; simp only [List.cons.injEq] at heq; omega
    · rfl
  simp only [hsign, e2, e3, List.isEmpty_cons, Bool.false_eq_true, if_false]
  have hv' : ¬ UINT_MAX < digitsValue (d :: ds) := by omega
  simp [hv']

/-- Reading a run of digits that ends the input. -/
theorem extractUnsigned_end (d : Nat) (ds : List Nat) (v : Nat)
    (hd : ∀ x ∈ d :: ds, isdigit x = true) (hv : digitsValue (d :: ds) ≤ UINT_MAX) :
    extractUnsigned ⟨32 :: d :: ds, false, false⟩ v
      = (⟨[], true, false⟩, digitsValue (d :: ds)) := by
  have hd0 := hd d (by simp)
  have hb := isdigit_bounds hd0
  have hs := isdigit_not_space hd0
  have h32 : isspace 32 = true := by decide
  have e1 : (32 :: d :: ds).dropWhile isspace = d :: ds := by
    simp only [List.dropWhile, h32, hs]
  have e2 := takeWhile_all (d :: ds) hd
  have e3 := dropWhile_all (d :: ds) hd
  unfold extractUnsigned
  simp only [IStream.sentry, IStream.good, e1, Bool.not_false, Bool.and_self,
    if_true, Bool.false_eq_true, if_false]
  have hsign : (match d :: ds with
      | 45 :: r => (true, r)
      | 43 :: r => (false, r)
      | b => (false, b)) = (false, d :: ds) := by
    split
    · rename_i heq; simp only [List.cons.injEq] at heq; omega
    · rename_i heq; simp only [List.cons.injEq] at heq; omega
    · rfl
  simp only [hsign, e2, e3, List.isEmpty_cons, Bool.false_eq_true, if_false]
  have hv' : ¬ UINT_MAX < digitsValue (d :: ds) := by omega
  simp [hv']

/-- A line that ends in a newline is read up to it. -/
theorem getline_line (l rest str : List Nat) (hl : ∀ x ∈ l, (x != 10) = true) :
    getline ⟨l ++ 10 :: rest, false, false⟩ str = (⟨rest, false, false⟩, l) := by
  have e2 := takeWhile_run (p := fun c => c != 10) l 10 rest hl (by simp)
  have e3 := dropWhile_run (p := fun c => c != 10) l 10 rest hl (by simp)
  unfold getline
  simp only [IStream.sentry, IStream.good, Bool.not_false, Bool.and_self, if_true, e2, e3]

theorem isdigit_not_newline {x : Nat} (h : isdigit x = true) : (x != 10) = true := by
  have hb := isdigit_bounds h
  simp only [bne_iff_ne, ne_eq]
  omega

/-- What `loadImage` returns on a file written by `saveImage`: the header is
read back exactly, and the pixel buffer is what `read` delivers for the size
computed in `unsigned int` arithmetic. -/
theorem loadImage_ppmBytes (fuel : Nat) (u : Uninit) (path : String) (img : Image)
    (hw : img.width ≤ UINT_MAX) (hh : img.height ≤ UINT_MAX) :
    loadImage (fuel + 2) u path (some (ppmBytes img))
      = .ok ⟨((⟨img.pixel, false, false⟩ : IStream).read
                ((img.width * img.height * 3) % UINT_SIZE)
                (List.replicate ((img.width * img.height * 3) % UINT_SIZE) 0)).2,
             img.width, img.height⟩ := by
  obtain ⟨wd, wds, ew, hwd, hwv⟩ := printUnsigned_spec img.width
  obtain ⟨hd, hds, eh, hhd, hhv⟩ := printUnsigned_spec img.height
  have hwb := isdigit_bounds (hwd wd (by simp))
  -- the magic token
  have e1 : extractString ⟨ppmBytes img, false, false⟩ []
      = (⟨10 :: (wd :: wds ++ 32 :: (hd :: hds ++ 10 :: (50 :: 53 :: 53 :: 10 :: img.pixel))),
          false, false⟩, magicP6) := by
    simp [extractString, IStream.sentry, IStream.good, ppmBytes, ew, eh,
      List.dropWhile, List.takeWhile, isspace, magicP6]
  -- the empty rest of the magic line
  have e2 : ∀ str rest, getline ⟨10 :: rest, false, false⟩ str = (⟨rest, false, false⟩, []) :=
    fun str rest => getline_line [] rest str (by simp)
  -- the line with the two sizes
  have hline : ∀ x ∈ wd :: wds ++ 32 :: (hd :: hds), (x != 10) = true := by
    intro x hx
    rcases List.mem_append.mp hx with h | h
    · exact isdigit_not_newline (hwd x h)
    · rcases List.mem_cons.mp h with h | h
      · subst h; decide
      · exact isdigit_not_newline (hhd x h)
  have e3 := getline_line (wd :: wds ++ 32 :: (hd :: hds)) (50 :: 53 :: 53 :: 10 :: img.pixel) []
    hline
  have e3' : getline ⟨wd :: wds ++ 32 :: (hd :: hds ++ 10 :: (50 :: 53 :: 53 :: 10 :: img.pixel)),
      false, false⟩ [] = (⟨50 :: 53 :: 53 :: 10 :: img.pixel, false, false⟩,
        wd :: (wds ++ 32 :: (hd :: hds))) := by
    simpa using e3
  have e4 : skipComments (fuel + 2)
      ⟨10 :: (wd :: wds ++ 32 :: (hd :: hds ++ 10 :: (50 :: 53 :: 53 :: 10 :: img.pixel))),
        false, false⟩ magicP6
      = some (⟨50 :: 53 :: 53 :: 10 :: img.pixel, false, false⟩,
          wd :: (wds ++ 32 :: (hd :: hds))) := by
    have hne : (wd != 35) = true := by
      simp only [bne_iff_ne, ne_eq]
      omega
    simp only [skipComments, e2, e3', hne, if_true]
  -- the sizes
  have e5 := extractUnsigned_run wd wds 32 (hd :: hds) u.width hwd (by decide)
    (by rw [hwv]; exact hw)
  have e6 := extractUnsigned_end hd hds u.height hhd (by rw [hhv]; exact hh)
  -- the maximum colour value
  have e7 := extractUnsigned_run 50 [53, 53] 10 img.pixel u.maxColor (by decide) (by decide)
    (by decide)
  have e7' : digitsValue [50, 53, 53] = 255 := by decide
  simp only [List.cons_append, List.nil_append] at e5 e7
  simp only [loadImage, IStream.open]
  simp only [e1, ne_eq, not_true_eq_false, if_false, e4, e5, e6, e7, e7', hwv, hhv, e2]

/-- Round trip below the `unsigned int` limit: an image whose pixel count
times three does not wrap is read back unchanged. -/
theorem loadImage_ppmBytes_small (fuel : Nat) (u : Uninit) (path : String) (img : Image)
    (hw : img.width ≤ UINT_MAX) (hh : img.height ≤ UINT_MAX)
    (hn : img.width * img.height * 3 < UINT_SIZE)
    (hl : img.pixel.length = img.width * img.height * 3) :
    loadImage (fuel + 2) u path (some (ppmBytes img)) = .ok img := by
  rw [loadImage_ppmBytes fuel u path img hw hh, Nat.mod_eq_of_lt hn, ← hl]
  simp [IStream.read, IStream.sentry, IStream.good]

/-- A 65536 x 65536 image, whatever its pixel buffer, is read back with an
empty one: the size `width * height * 3` wraps to `0`. -/
theorem loadImage_ppmBytes_wrap (fuel : Nat) (u : Uninit) (path : String) (pixel : List Nat) :
    loadImage (fuel + 2) u path (some (ppmBytes ⟨pixel, 65536, 65536⟩))
      = .ok ⟨[], 65536, 65536⟩ := by
  have hw : (65536 : Nat) ≤ UINT_MAX := by decide
  rw [loadImage_ppmBytes fuel u path ⟨pixel, 65536, 65536⟩ hw hw]
  have hz : (65536 * 65536 * 3) % UINT_SIZE = 0 := by decide
  simp [IStream.read, IStream.sentry, IStream.good, hz]

/-! ## The comment-skipping loop -/

/-- Once the stream is no longer good, `getline` changes nothing, so the loop
never leaves when the current line is empty or a comment. -/
theorem skipComments_stuck : ∀ (fuel : Nat) (s : IStream) (str : List Nat),
    s.good = false → (str = [] ∨ str.head? = some 35) → skipComments fuel s str = none
  | 0, _, _, _, _ => rfl
  | fuel + 1, s, str, hg, hs => by
    have e : getline s str = (⟨s.buf, s.eofbit, true⟩, str) := by
      simp [getline, IStream.sentry, hg]
    have hg1 : (⟨s.buf, s.eofbit, true⟩ : IStream).good = false := by
      simp [IStream.good]
    have ih := skipComments_stuck fuel ⟨s.buf, s.eofbit, true⟩ str hg1 hs
    cases str with
    | nil => simp only [skipComments, e, ih]
    | cons c cs =>
      have hc : c = 35 := by simpa using hs
      subst hc
      simp only [skipComments, e, ih, bne_self_eq_false, Bool.false_eq_true, if_false]

/-- The token `in >> s` reads first. -/
theorem extractString_open (bytes : List Nat) :
    (extractString (IStream.open bytes) []).2 = firstToken bytes := by
  unfold extractString firstToken IStream.sentry IStream.open IStream.good
  simp only [Bool.not_false, Bool.and_self, if_true, Bool.false_eq_true, if_false]
  cases h : bytes.dropWhile isspace with
  | nil => simp
  | cons c rest => simp

/-- A file whose first token is not "P6" is rejected as not being a PPM
file. -/
theorem loadImage_bad_magic (fuel : Nat) (u : Uninit) (path : String) (bytes : List Nat)
    (h : firstToken bytes ≠ magicP6) :
    loadImage fuel u path (some bytes)
      = .throw (.msg ("Bad image format for '" ++ path ++ "', only PPM supported")) := by
  have e := extractString_open bytes
  unfold loadImage
  simp only [e, ne_eq, h, not_false_eq_true, if_true]

/-- Round trip for every image whose pixel buffer has the length `loadImage`
computes, `width * height * 3` in `unsigned int` arithmetic. -/
theorem loadImage_ppmBytes_mod (fuel : Nat) (u : Uninit) (path : String) (img : Image)
    (hw : img.width ≤ UINT_MAX) (hh : img.height ≤ UINT_MAX)
    (hl : img.pixel.length = (img.width * img.height * 3) % UINT_SIZE) :
    loadImage (fuel + 2) u path (some (ppmBytes img)) = .ok img := by
  rw [loadImage_ppmBytes fuel u path img hw hh, ← hl]
  simp [IStream.read, IStream.sentry, IStream.good]

/-- A header that is read up to a maximum colour value other than 255 is
rejected. -/
theorem loadImage_bad_maxColor (fuel : Nat) (u : Uninit) (path : String) (bytes : List Nat)
    (in2 : IStream) (line : List Nat)
    (hm : (extractString (IStream.open bytes) []).2 = magicP6)
    (hc : skipComments fuel (extractString (IStream.open bytes) []).1 magicP6
      = some (in2, line))
    (hv : (extractUnsigned in2 u.maxColor).2 ≠ 255) :
    loadImage fuel u path (some bytes)
      = .throw (.msg ("Bad max color for '" ++ path ++ "', should be 255")) := by
  unfold loadImage
  simp only [hm, ne_eq, not_true_eq_false, if_false, hc, hv, not_false_eq_true, if_true]

/-- A maximum colour value of 254 is rejected. -/
theorem loadImage_maxColor_254 (fuel : Nat) (u : Uninit) :
    loadImage (fuel + 2) u "x" (some [80, 54, 10, 49, 32, 49, 10, 50, 53, 52, 10, 1, 2, 3])
      = .throw (.msg "Bad max color for 'x', should be 255") := by
  have h := loadImage_bad_maxColor (fuel + 2) u "x"
    [80, 54, 10, 49, 32, 49, 10, 50, 53, 52, 10, 1, 2, 3]
    ⟨[50, 53, 52, 10, 1, 2, 3], false, false⟩ [49, 32, 49] (by decide)
    (by
      have e1 : extractString (IStream.open
          [80, 54, 10, 49, 32, 49, 10, 50, 53, 52, 10, 1, 2, 3]) []
          = (⟨[10, 49, 32, 49, 10, 50, 53, 52, 10, 1, 2, 3], false, false⟩, magicP6) := by
        decide
      have g1 : getline ⟨[10, 49, 32, 49, 10, 50, 53, 52, 10, 1, 2, 3], false, false⟩ magicP6
          = (⟨[49, 32, 49, 10, 50, 53, 52, 10, 1, 2, 3], false, false⟩, []) := by decide
      have g2 : getline ⟨[49, 32, 49, 10, 50, 53, 52, 10, 1, 2, 3], false, false⟩ []
          = (⟨[50, 53, 52, 10, 1, 2, 3], false, false⟩, [49, 32, 49]) := by decide
      have hne : ((49 : Nat) != 35) = true := by decide
      rw [e1]
      simp only [skipComments, g1, g2, hne, if_true])
    (by
      have e : extractUnsigned ⟨[50, 53, 52, 10, 1, 2, 3], false, false⟩ u.maxColor
          = (⟨[10, 1, 2, 3], false, false⟩, 254) :=
        extractUnsigned_run 50 [53, 52] 10 [1, 2, 3] u.maxColor (by decide) (by decide)
          (by decide)
      rw [e]
      decide)
  exact h

/-! ## Termination of the comment-skipping loop -/

/-- A call of `getline` either leaves the stream in a state that is not good
or consumes at least one byte. -/
theorem getline_progress (s : IStream) (str : List Nat) :
    (getline s str).1.good = false ∨ (getline s str).1.buf.length < s.buf.length := by
  cases hg : s.good with
  | false =>
    left
    have e : getline s str = (⟨s.buf, s.eofbit, true⟩, str) := by
      simp [getline, IStream.sentry, hg]
    rw [e]
    simp [IStream.good]
  | true =>
    have hsen : s.sentry true = (true, s) := by
      simp [IStream.sentry, hg]
    cases hd : s.buf.dropWhile (fun c => c != 10) with
    | nil =>
      left
      have e : getline s str = (⟨[], true, (s.buf.takeWhile (fun c => c != 10)).isEmpty⟩,
          s.buf.takeWhile (fun c => c != 10)) := by
        simp only [getline, hsen, hd]
      rw [e]
      simp [IStream.good]
    | cons x rest =>
      right
      have hle := (List.dropWhile_suffix (fun c => c != 10) (l := s.buf)).length_le
      rw [hd] at hle
      simp only [List.length_cons] at hle
      have e : getline s str = (⟨rest, s.eofbit, s.failbit⟩,
          s.buf.takeWhile (fun c => c != 10)) := by
        simp only [getline, hsen, hd]
      rw [e]
      simp only
      omega

/-- More fuel does not change what the loop returns. -/
theorem skipComments_mono : ∀ (n : Nat) (s : IStream) (str : List Nat) (r : IStream × List Nat),
    skipComments n s str = some r → skipComments (n + 1) s str = some r
  | 0, _, _, _, h => by simp [skipComments] at h
  | n + 1, s, str, r, h => by
    rcases hg : getline s str with ⟨s1, str1⟩
    cases str1 with
    | nil =>
      simp only [skipComments, hg] at h ⊢
      exact skipComments_mono n s1 [] r h
    | cons c cs =>
      simp only [skipComments, hg] at h ⊢
      by_cases hc : (c != 35) = true
      · simpa [hc] using h
      · simp only [hc, if_false] at h ⊢
        exact skipComments_mono n s1 (c :: cs) r h

theorem skipComments_mono_add (n k : Nat) (s : IStream) (str : List Nat)
    (r : IStream × List Nat) (h : skipComments n s str = some r) :
    skipComments (n + k) s str = some r := by
  induction k with
  | zero => exact h
  | succ k ih => exact skipComments_mono (n + k) s str r ih

/-- Two iterations more than there are unread bytes decide the loop: when
it has not left by then it never leaves. -/
theorem skipComments_enough : ∀ (n : Nat) (s : IStream) (str : List Nat),
    s.buf.length + 2 ≤ n → skipComments n s str = none → ∀ m, skipComments m s str = none
  | 0, _, _, h, _ => by omega
  | n + 1, s, str, h, hn => by
    intro m
    cases m with
    | zero => rfl
    | succ m =>
      have hp := getline_progress s str
      rcases hg : getline s str with ⟨s1, str1⟩
      rw [hg] at hp
      simp only at hp
      cases str1 with
      | nil =>
        simp only [skipComments, hg] at hn ⊢
        rcases hp with hp | hp
        · exact skipComments_stuck m s1 [] hp (Or.inl rfl)
        · exact skipComments_enough n s1 [] (by omega) hn m
      | cons c cs =>
        simp only [skipComments, hg] at hn ⊢
        by_cases hc : (c != 35) = true
        · simp [hc] at hn
        · simp only [hc, if_false] at hn ⊢
          have hc1 : c = 35 := by simpa using hc
          rcases hp with hp | hp
          · exact skipComments_stuck m s1 (c :: cs) hp (Or.inr (by simp [hc1]))
          · exact skipComments_enough n s1 (c :: cs) (by omega) hn m

/-- After the magic, a file that holds nothing but empty lines keeps the loop
running for ever. -/
theorem skipComments_newlines : ∀ (k fuel : Nat) (str : List Nat),
    skipComments fuel ⟨List.replicate k 10, false, false⟩ str = none
  | _, 0, _ => rfl
  | 0, fuel + 1, str => by
    have g : getline ⟨List.replicate 0 10, false, false⟩ str = (⟨[], true, true⟩, []) := by
      simp [getline, IStream.sentry, IStream.good]
    simp only [skipComments, g]
    exact skipComments_stuck fuel ⟨[], true, true⟩ [] rfl (Or.inl rfl)
  | k + 1, fuel + 1, str => by
    have g : getline ⟨List.replicate (k + 1) 10, false, false⟩ str
        = (⟨List.replicate k 10, false, false⟩, []) := by
      have := getline_line [] (List.replicate k 10) str (by simp)
      simpa [List.replicate_succ] using this
    simp only [skipComments, g]
    exact skipComments_newlines k fuel []

/-- When `loadImage` does not end: the magic is there and the loop does not
leave. -/
theorem loadImage_diverge_iff (n : Nat) (u : Uninit) (path : String) (bytes : List Nat) :
    loadImage n u path (some bytes) = .diverge ↔
      (extractString (IStream.open bytes) []).2 = magicP6 ∧
        skipComments n (extractString (IStream.open bytes) []).1 magicP6 = none := by
  unfold loadImage
  by_cases hm : (extractString (IStream.open bytes) []).2 = magicP6
  · simp only [hm, ne_eq, not_true_eq_false, if_false, true_and]
    cases hs : skipComments n (extractString (IStream.open bytes) []).1 magicP6 with
    | none => simp
    | some r =>
      simp only
      split <;> simp
  · simp [hm]

theorem extractString_length (bytes : List Nat) :
    (extractString (IStream.open bytes) []).1.buf.length ≤ bytes.length := by
  have h1 := (List.dropWhile_suffix isspace (l := bytes)).length_le
  cases hd : bytes.dropWhile isspace with
  | nil =>
    have e : (extractString (IStream.open bytes) []).1.buf = [] := by
      simp [extractString, IStream.sentry, IStream.open, IStream.good, hd]
    rw [e]
    simp
  | cons c rest =>
    have e : (extractString (IStream.open bytes) []).1.buf
        = (c :: rest).dropWhile (fun x => !isspace x) := by
      simp [extractString, IStream.sentry, IStream.open, IStream.good, hd]
    have h2 := (List.dropWhile_suffix (fun x => !isspace x) (l := c :: rest)).length_le
    rw [e]
    rw [hd] at h1
    omega

/-- A result `loadImage` returns with some fuel it returns with any larger
fuel. -/
theorem loadImage_fuel_mono (n k : Nat) (u : Uninit) (path : String)
    (file : Option (List Nat)) (h : loadImage n u path file ≠ .diverge) :
    loadImage (n + k) u path file = loadImage n u path file := by
  cases file with
  | none => rfl
  | some bytes =>
    by_cases hm : (extractString (IStream.open bytes) []).2 = magicP6
    · cases hs : skipComments n (extractString (IStream.open bytes) []).1 magicP6 with
      | none => exact absurd ((loadImage_diverge_iff n u path bytes).mpr ⟨hm, hs⟩) h
      | some r =>
        have hs1 := skipComments_mono_add n k _ _ r hs
        unfold loadImage
        simp only [hm, ne_eq, not_true_eq_false, if_false, hs, hs1]
    · unfold loadImage
      simp only [ne_eq, hm, not_false_eq_true, if_true]

/-- Two iterations more than the file has bytes decide `loadImage`: when it
has not ended by then it never ends. -/
theorem loadImage_enough (n : Nat) (u : Uninit) (path : String) (bytes : List Nat)
    (hn : bytes.length + 2 ≤ n) (h : loadImage n u path (some bytes) = .diverge) :
    ∀ m, loadImage m u path (some bytes) = .diverge := by
  intro m
  obtain ⟨hm, hs⟩ := (loadImage_diverge_iff n u path bytes).mp h
  have hl := extractString_length bytes
  exact (loadImage_diverge_iff m u path bytes).mpr
    ⟨hm, skipComments_enough n _ magicP6 (by omega) hs m⟩

/-- Every file is decided: either `loadImage` never ends on it, or it ends,
with one and the same result for every fuel from the file length plus two
on. -/
theorem loadImage_decided (u : Uninit) (path : String) (bytes : List Nat) :
    (∀ m, loadImage m u path (some bytes) = .diverge) ∨
    (loadImage (bytes.length + 2) u path (some bytes) ≠ .diverge ∧
      ∀ k, loadImage (bytes.length + 2 + k) u path (some bytes)
        = loadImage (bytes.length + 2) u path (some bytes)) := by
  by_cases h : loadImage (bytes.length + 2) u path (some bytes) = .diverge
  · exact Or.inl (loadImage_enough _ u path bytes (le_refl _) h)
  · exact Or.inr ⟨h, fun k => loadImage_fuel_mono _ k u path _ h⟩

/-- A file that ends right after the magic, without a newline: the loop
leaves at once with the line "P6" still in `s`, `width` becomes 0, `height`
and `maxColor` are never written. -/
theorem loadImage_magic_only (fuel : Nat) (u : Uninit) (path : String) :
    loadImage (fuel + 1) u path (some [80, 54])
      = if u.maxColor ≠ 255 then
          .throw (.msg ("Bad max color for '" ++ path ++ "', should be 255"))
        else .ok ⟨[], 0, u.height⟩ := by
  have e1 : extractString (IStream.open [80, 54]) [] = (⟨[], true, false⟩, magicP6) := by
    decide
  have g1 : getline ⟨[], true, false⟩ magicP6 = (⟨[], true, true⟩, [80, 54]) := by decide
  have hne : ((80 : Nat) != 35) = true := by decide
  have e2 : skipComments (fuel + 1) ⟨[], true, false⟩ magicP6
      = some (⟨[], true, true⟩, magicP6) := by
    simp only [skipComments, g1, hne, if_true]
    rfl
  have e3 : extractUnsigned (IStream.open magicP6) u.width = (⟨[80, 54], false, true⟩, 0) := by
    simp [extractUnsigned, IStream.sentry, IStream.open, IStream.good, magicP6, isspace,
      List.dropWhile, List.takeWhile, isdigit]
  have e4 : extractUnsigned ⟨[80, 54], false, true⟩ u.height
      = (⟨[80, 54], false, true⟩, u.height) := by
    simp [extractUnsigned, IStream.sentry, IStream.good]
  have e5 : extractUnsigned ⟨[], true, true⟩ u.maxColor = (⟨[], true, true⟩, u.maxColor) := by
    simp [extractUnsigned, IStream.sentry, IStream.good]
  have e6 : getline ⟨[], true, true⟩ [] = (⟨[], true, true⟩, []) := by decide
  simp only [loadImage, e1, ne_eq, not_true_eq_false, if_false, e2, e3, e4, e5, e6]
  by_cases hc : u.maxColor = 255
  · simp [hc, IStream.read, IStream.sentry, IStream.good]
  · simp [hc]

/-! ## Reasoning about computations -/

theorem bind_eq {α β : Type} (m : Proc α) (f : α → Proc β) : (m >>= f) = Proc.bind m f := rfl

theorem pure_eq {α : Type} (a : α) : (pure a : Proc α) = Proc.pure a := rfl

theorem bind_ok {α β : Type} {m : Proc α} {f : α → Proc β} {w w1 : World} {a : α}
    (h : m w = (.ok a, w1)) : Proc.bind m f w = f a w1 := by
  simp [Proc.bind, h]

theorem frame_pure {α : Type} {P : Event → Prop} {Q : α → List Event → Prop} (a : α)
    (hQ : Q a []) : Frame P (Proc.pure a) Q := by
  intro w
  refine ⟨[], by simp [Proc.pure], by simp, ?_⟩
  intro b hb
  simp only [Proc.pure, Res.ok.injEq] at hb
  subst hb
  exact hQ

theorem frame_throwError {α : Type} {P : Event → Prop} {Q : α → List Event → Prop}
    (message : String) : Frame P (Processor.throwError message : Proc α) Q := by
  intro w
  exact ⟨[], by simp [Processor.throwError], by simp, by simp [Processor.throwError]⟩

theorem frame_liftRes {α : Type} {P : Event → Prop} {Q : α → List Event → Prop} (r : Res α)
    (hQ : ∀ a, r = .ok a → Q a []) : Frame P (liftRes r) Q := by
  intro w
  exact ⟨[], by simp [liftRes], by simp, fun a ha => hQ a (by simpa [liftRes] using ha)⟩

theorem frame_checkError {P : Event → Prop} {Q : Unit → List Event → Prop} (error : Int)
    (hQ : error = 0 → Q () []) : Frame P (Processor.checkError error) Q := by
  intro w
  by_cases h : error = 0
  · exact ⟨[], by simp [Processor.checkError, h], by simp, fun _ _ => hQ h⟩
  · exact ⟨[], by simp [Processor.checkError, h], by simp, by simp [Processor.checkError, h]⟩

theorem frame_create {P : Event → Prop} {Q : Nat × Int → List Event → Prop} (env : Env)
    (ev : Nat → Event) (hP : ∀ h, P (ev h))
    (hQ : ∀ h status, (status = 0 → h ≠ 0) → Q (h, status) [ev h]) :
    Frame P (create env ev) Q := by
  intro w
  refine ⟨[ev (if env.status w.calls.length = 0 then w.calls.length + 1 else 0)], by simp [create],
    by simpa using hP _, ?_⟩
  intro a ha
  simp only [create, Res.ok.injEq] at ha
  subst ha
  apply hQ
  intro h0
  simp [h0]

theorem frame_call {P : Event → Prop} {Q : Int → List Event → Prop} (env : Env) (ev : Event)
    (hP : P ev) (hQ : ∀ status, Q status [ev]) : Frame P (call env ev) Q := by
  intro w
  refine ⟨[ev], by simp [call], by simpa using hP, ?_⟩
  intro a ha
  simp only [call, Res.ok.injEq] at ha
  subst ha
  exact hQ _

theorem frame_bind {α β : Type} {P : Event → Prop} {m : Proc α} {f : α → Proc β}
    {Q : α → List Event → Prop} {R : β → List Event → Prop} (hm : Frame P m Q)
    (hf : ∀ a evs1, Q a evs1 → Frame P (f a) (fun b evs2 => R b (evs1 ++ evs2))) :
    Frame P (Proc.bind m f) R := by
  intro w
  obtain ⟨evs1, h1, hp1, hq1⟩ := hm w
  rcases hmw : m w with ⟨r, w1⟩
  rw [hmw] at h1 hq1
  cases r with
  | ok a =>
    obtain ⟨evs2, h2, hp2, hq2⟩ := hf a evs1 (hq1 a rfl) w1
    refine ⟨evs1 ++ evs2, ?_, ?_, ?_⟩
    · rw [bind_ok hmw, h2]
      simp only at h1
      rw [h1, List.append_assoc]
    · intro e he
      rcases List.mem_append.mp he with he | he
      · exact hp1 e he
      · exact hp2 e he
    · intro b hb
      rw [bind_ok hmw] at hb
      exact hq2 b hb
  | throw e => exact ⟨evs1, by simpa [Proc.bind, hmw] using h1, hp1, by simp [Proc.bind, hmw]⟩
  | undefined => exact ⟨evs1, by simpa [Proc.bind, hmw] using h1, hp1, by simp [Proc.bind, hmw]⟩
  | diverge => exact ⟨evs1, by simpa [Proc.bind, hmw] using h1, hp1, by simp [Proc.bind, hmw]⟩

theorem frame_weaken {α : Type} {P P1 : Event → Prop} {m : Proc α}
    {Q Q1 : α → List Event → Prop} (h : Frame P m Q) (hP : ∀ e, P e → P1 e)
    (hQ : ∀ a evs, (∀ e ∈ evs, P e) → Q a evs → Q1 a evs) : Frame P1 m Q1 := by
  intro w
  obtain ⟨evs, h1, hp, hq⟩ := h w
  exact ⟨evs, h1, fun e he => hP e (hp e he), fun a ha => hQ a evs hp (hq a ha)⟩

/-! ## One iteration of the binding loop -/

theorem argType_cases (t : ArgType) : t = .RAW ∨ t = .BUFFER ∨ t = .IMAGE := by
  cases t <;> simp

theorem frame_prepareBuffer (env : Env) (arg : KernelArg) (flags : Nat) (input : InputArg) :
    Frame (BindEvent arg input) (Processor.prepareBuffer env arg flags input)
      (fun r _ => (r.2.1 = 0 → r.1 ≠ 0) ∧
        r.2.2 = (if arg.direction = .INPUT then
          ⟨1, setSize (setSize input.sizes 0 arg.size) 1 0⟩ else input)) := by
  unfold Processor.prepareBuffer
  simp only [bind_eq, pure_eq]
  refine frame_bind (Q := fun r _ => r.2 = 0 → r.1 ≠ 0)
    (frame_create env _ (fun h => by simp [BindEvent]) (fun h st hh => hh)) ?_
  intro r evs1 hr
  refine frame_bind (Q := fun error _ => error = 0 → r.1 ≠ 0) ?_ ?_
  · split
    · exact frame_pure _ hr
    · refine frame_bind (Q := fun _ _ => r.1 ≠ 0) (frame_checkError _ (fun h => hr h)) ?_
      intro _ _ hne
      exact frame_call env _ (by simp [BindEvent]) (fun _ _ => hne)
  · intro error evs2 he
    exact frame_pure _ ⟨he, rfl⟩

theorem output_flags (copy : Bool) :
    (CL_MEM_WRITE_ONLY ||| (if copy then CL_MEM_COPY_HOST_PTR else 0))
      &&& (UINT_MAX - CL_MEM_COPY_HOST_PTR) = CL_MEM_WRITE_ONLY := by
  cases copy <;> decide

theorem input_flags (copy : Bool) :
    (CL_MEM_READ_ONLY ||| (if copy then CL_MEM_COPY_HOST_PTR else 0)) ≠ CL_MEM_WRITE_ONLY := by
  cases copy <;> decide

theorem frame_prepareImage (env : Env) (fuel : Nat) (arg : KernelArg) (input : InputArg)
    (ht : arg.type = .IMAGE) :
    Frame (BindEvent arg input)
      (Processor.prepareImage env fuel arg
        ((if arg.direction = .STATIC ∨ arg.direction = .INPUT then CL_MEM_READ_ONLY
          else CL_MEM_WRITE_ONLY) ||| (if arg.copy then CL_MEM_COPY_HOST_PTR else 0)) input)
      (fun r evs => (r.2.1 = 0 → r.1 ≠ 0) ∧
        ∃ image, Processor.argumentImage env fuel arg input = .ok image ∧
          r.2.2 = (if arg.direction = .INPUT then
            ⟨2, setSize (setSize (setSize input.sizes 0 image.width) 1 image.height) 2 0⟩
            else input) ∧
          (arg.direction = .OUTPUT →
            Event.createImage2D CL_MEM_WRITE_ONLY (input.sizes 0 % UINT_SIZE)
              (input.sizes 1 % UINT_SIZE) none r.1 ∈ evs)) := by
  unfold Processor.prepareImage
  simp only [bind_eq, pure_eq]
  refine frame_bind (Q := fun image _ => Processor.argumentImage env fuel arg input = .ok image)
    (frame_liftRes _ (fun a ha => ha)) ?_
  intro image evs0 himg
  have himg2 : arg.direction = .OUTPUT →
      image = ⟨[], input.sizes 0 % UINT_SIZE, input.sizes 1 % UINT_SIZE⟩ := by
    intro hd
    simp only [Processor.argumentImage, hd, if_true, Res.ok.injEq] at himg
    exact himg.symm
  refine frame_bind (Q := fun r evs => (r.2 = 0 → r.1 ≠ 0) ∧ (arg.direction = .OUTPUT →
      Event.createImage2D CL_MEM_WRITE_ONLY (input.sizes 0 % UINT_SIZE)
        (input.sizes 1 % UINT_SIZE) none r.1 ∈ evs)) ?_ ?_
  · refine frame_create env _ ?_ ?_
    · intro h
      by_cases hd : arg.direction = .OUTPUT
      · simp [BindEvent, ht, hd, himg2 hd, output_flags]
      · have hro : arg.direction = .STATIC ∨ arg.direction = .INPUT := by
          cases hdir : arg.direction <;> simp_all
        simp [BindEvent, ht, hd, hro, input_flags]
    · intro h st hh
      refine ⟨hh, ?_⟩
      intro hd
      simp [hd, himg2 hd, output_flags]
  · intro r evs1 hr
    refine frame_bind (Q := fun error _ => error = 0 → r.1 ≠ 0) ?_ ?_
    · split
      · refine frame_bind (Q := fun _ _ => r.1 ≠ 0) (frame_checkError _ (fun h => hr.1 h)) ?_
        intro _ _ hne
        exact frame_call env _ (by simp [BindEvent]) (fun _ _ => hne)
      · exact frame_pure _ hr.1
    · intro error evs2 he
      refine frame_pure _ ⟨he, image, himg, rfl, ?_⟩
      intro hd
      have := hr.2 hd
      simp [this]

theorem frame_prepareArgument (env : Env) (fuel kernel index : Nat) (arg : KernelArg)
    (st : BindState) :
    Frame (BindEvent arg st.input) (Processor.prepareArgument env fuel kernel index arg st)
      (StepPost env fuel arg st) := by
  unfold Processor.prepareArgument
  split
  · rename_i hraw
    simp only [bind_eq, pure_eq]
    refine frame_bind (Q := fun r evs => (r.2.1 = 0 → r.1 ≠ 0) ∧
      (arg.direction ≠ .INPUT → r.2.2 = st.input) ∧
      (arg.direction = .INPUT → arg.type = .BUFFER →
        r.2.2.dim = 1 ∧ r.2.2.sizes 0 = arg.size) ∧
      (arg.direction = .INPUT → arg.type = .IMAGE →
        ∃ image, Processor.argumentImage env fuel arg st.input = .ok image ∧
          r.2.2.dim = 2 ∧ r.2.2.sizes 0 = image.width ∧ r.2.2.sizes 1 = image.height) ∧
      (arg.direction = .OUTPUT → arg.type = .IMAGE →
        Event.createImage2D CL_MEM_WRITE_ONLY (st.input.sizes 0 % UINT_SIZE)
          (st.input.sizes 1 % UINT_SIZE) none r.1 ∈ evs)) ?_ ?_
    · split
      · rename_i hbuf
        refine frame_weaken (frame_prepareBuffer env arg _ st.input) (fun e he => he) ?_
        intro r evs _ hr
        refine ⟨hr.1, ?_, ?_, ?_, ?_⟩
        · intro hd
          simp [hr.2, hd]
        · intro hd _
          simp [hr.2, hd, setSize]
        · intro _ hi
          rw [hbuf] at hi
          cases hi
        · intro _ hi
          rw [hbuf] at hi
          cases hi
      · rename_i hbuf
        have himage : arg.type = .IMAGE := by
          rcases argType_cases arg.type with h | h | h
          · exact absurd h hraw
          · exact absurd h hbuf
          · exact h
        refine frame_weaken (frame_prepareImage env fuel arg st.input himage)
          (fun e he => he) ?_
        intro r evs _ hr
        obtain ⟨h1, image, himg, hin, hev⟩ := hr
        refine ⟨h1, ?_, ?_, ?_, ?_⟩
        · intro hd
          simp [hin, hd]
        · intro _ hb
          exact absurd hb hbuf
        · intro hd _
          exact ⟨image, himg, by simp [hin, hd, setSize]⟩
        · intro hd _
          exact hev hd
    · intro r evs1 hr
      obtain ⟨h1, h2, h3, h4, h5⟩ := hr
      refine frame_bind (Q := fun _ _ => r.1 ≠ 0) (frame_checkError _ (fun h => h1 h)) ?_
      intro _ evs2 hne
      refine frame_bind (Q := fun _ _ => True)
        (frame_call env _ (by simp [BindEvent]) (fun _ => trivial)) ?_
      intro error evs3 _
      refine frame_bind (Q := fun _ _ => True) (frame_checkError _ (fun _ => trivial)) ?_
      intro _ evs4 _
      refine frame_pure _ ⟨?_, ?_, h3, h4, ?_, ?_⟩
      · intro hd
        rcases hd with hd | hd
        · exact h2 hd
        · exact absurd hd hraw
      · intro hd
        rcases hd with hd | hd
        · simp [hd]
        · exact absurd hd hraw
      · intro hd _
        simp [hd, hne]
      · intro hd ht
        have := h5 hd ht
        simp [hd, this]
  · rename_i hraw
    have hraw1 : arg.type = .RAW := by simpa using hraw
    simp only [bind_eq, pure_eq]
    refine frame_bind (Q := fun _ _ => True)
      (frame_call env _ (by simp [BindEvent]) (fun _ => trivial)) ?_
    intro error evs1 _
    refine frame_bind (Q := fun _ _ => True) (frame_checkError _ (fun _ => trivial)) ?_
    intro _ evs2 _
    refine frame_pure _ ⟨fun _ => rfl, fun _ => rfl, ?_, ?_, ?_, ?_⟩
    · intro _ ht
      rw [hraw1] at ht
      cases ht
    · intro _ ht
      rw [hraw1] at ht
      cases ht
    · intro _ ht
      exact absurd hraw1 ht
    · intro _ ht
      rw [hraw1] at ht
      cases ht

/-! ## The binding loop -/

/-- A property of the locals and of the calls made so far that every
iteration keeps is kept by the loop. -/
theorem frame_prepareLoop (env : Env) (fuel kernel : Nat) (P : Event → Prop)
    (I : BindState → List Event → Prop) :
    ∀ (args : List KernelArg),
      (∀ a ∈ args, ∀ index st evs0, I st evs0 →
        Frame P (Processor.prepareArgument env fuel kernel index a st)
          (fun st1 evs => I st1 (evs0 ++ evs))) →
      ∀ index st evs0, I st evs0 →
        Frame P (Processor.prepareLoop env fuel kernel args index st)
          (fun st1 evs => I st1 (evs0 ++ evs))
  | [], _, index, st, evs0, hI => by
    unfold Processor.prepareLoop
    exact frame_pure st (by simpa using hI)
  | a :: rest, hstep, index, st, evs0, hI => by
    unfold Processor.prepareLoop
    refine frame_bind (hstep a (by simp) index st evs0 hI) ?_
    intro st1 evs1 hI1
    have ih := frame_prepareLoop env fuel kernel P I rest
      (fun b hb => hstep b (by simp [hb])) ((index + 1) % UINT_SIZE) st1 (evs0 ++ evs1) hI1
    refine frame_weaken ih (fun e he => he) ?_
    intro st2 evs2 _ h2
    simpa [List.append_assoc] using h2

/-- A property that one argument of the list establishes and that every
iteration keeps holds after the loop. -/
theorem frame_prepareLoop_eventually (env : Env) (fuel kernel : Nat) (P : Event → Prop)
    (I : BindState → Prop) (K : BindState → List Event → Prop) (a : KernelArg)
    (hmono : ∀ st evs0 evs, K st evs → K st (evs0 ++ evs))
    (hest : ∀ index st, I st →
      Frame P (Processor.prepareArgument env fuel kernel index a st)
        (fun st1 evs => I st1 ∧ K st1 evs)) :
    ∀ (args : List KernelArg), a ∈ args →
      (∀ b ∈ args, ∀ index st, I st →
        Frame P (Processor.prepareArgument env fuel kernel index b st) (fun st1 _ => I st1)) →
      (∀ b ∈ args, ∀ index st evs0, I st → K st evs0 →
        Frame P (Processor.prepareArgument env fuel kernel index b st)
          (fun st1 evs => I st1 ∧ K st1 (evs0 ++ evs))) →
      ∀ index st, I st →
        Frame P (Processor.prepareLoop env fuel kernel args index st)
          (fun st1 evs => I st1 ∧ K st1 evs)
  | [], ha, _, _, _, _, _ => by simp at ha
  | b :: rest, ha, hinv, hkeep, index, st, hI => by
    unfold Processor.prepareLoop
    by_cases hab : a = b
    · subst hab
      refine frame_bind (hest index st hI) ?_
      intro st1 evs1 h1
      have hl := frame_prepareLoop env fuel kernel P (fun s evs => I s ∧ K s evs) rest
        (fun c hc idx s evs0 hs => hkeep c (by simp [hc]) idx s evs0 hs.1 hs.2)
        ((index + 1) % UINT_SIZE) st1 evs1 h1
      exact hl
    · have ha1 : a ∈ rest := by
        rcases List.mem_cons.mp ha with h | h
        · exact absurd h hab
        · exact h
      refine frame_bind (hinv b (by simp) index st hI) ?_
      intro st1 evs1 hI1
      have ih := frame_prepareLoop_eventually env fuel kernel P I K a hmono hest rest ha1
        (fun c hc => hinv c (by simp [hc])) (fun c hc => hkeep c (by simp [hc]))
        ((index + 1) % UINT_SIZE) st1 hI1
      refine frame_weaken ih (fun e he => he) ?_
      intro st2 evs2 _ h2
      exact ⟨h2.1, hmono st2 evs1 evs2 h2.2⟩

/-! ## Runs in which every runtime call succeeds -/

theorem argumentImage_ok (env : Env) (fuel : Nat) (arg : KernelArg) (input : InputArg)
    (ht : arg.type = .IMAGE) (hl : Loadable env fuel arg) :
    ∃ image, Processor.argumentImage env fuel arg input = .ok image := by
  unfold Processor.argumentImage
  by_cases hd : arg.direction = .OUTPUT
  · simp [hd]
  · obtain ⟨img, rgba, h1, h2⟩ := hl ht hd
    simp [hd, h1, h2]

theorem run_prepareArgument (env : Env) (fuel kernel index : Nat) (arg : KernelArg)
    (st : BindState) (w : World) (hs : ∀ k, env.status k = 0) (hl : Loadable env fuel arg) :
    ∃ st1, (Processor.prepareArgument env fuel kernel index arg st w).1 = .ok st1 := by
  by_cases hraw : arg.type = .RAW
  · simp [Processor.prepareArgument, hraw, bind_eq, pure_eq, Proc.bind, Proc.pure, call,
      Processor.checkError, hs]
  · by_cases hbuf : arg.type = .BUFFER
    · by_cases hc : arg.copy = true
      · simp [Processor.prepareArgument, Processor.prepareBuffer, hbuf, hc, bind_eq, pure_eq,
          Proc.bind, Proc.pure, call, create, Processor.checkError, hs]
      · simp [Processor.prepareArgument, Processor.prepareBuffer, hbuf, hc, bind_eq, pure_eq,
          Proc.bind, Proc.pure, call, create, Processor.checkError, hs]
    · have himg : arg.type = .IMAGE := by
        cases hty : arg.type <;> simp_all
      obtain ⟨image, hi⟩ := argumentImage_ok env fuel arg st.input himg hl
      by_cases hc : arg.copy = true
      · simp [Processor.prepareArgument, Processor.prepareImage, himg, hc, hi, bind_eq, pure_eq,
          Proc.bind, Proc.pure, call, create, Processor.checkError, hs, liftRes]
      · by_cases hd : arg.direction = .OUTPUT
        · simp [Processor.prepareArgument, Processor.prepareImage, himg, hc, hd, hi, bind_eq,
            pure_eq, Proc.bind, Proc.pure, call, create, Processor.checkError, hs, liftRes]
        · simp [Processor.prepareArgument, Processor.prepareImage, himg, hc, hd, hi, bind_eq,
            pure_eq, Proc.bind, Proc.pure, call, create, Processor.checkError, hs, liftRes]

theorem run_prepareLoop (env : Env) (fuel kernel : Nat) (hs : ∀ k, env.status k = 0) :
    ∀ (args : List KernelArg), (∀ a ∈ args, Loadable env fuel a) →
      ∀ (index : Nat) (st : BindState) (w : World),
        ∃ st1, (Processor.prepareLoop env fuel kernel args index st w).1 = .ok st1
  | [], _, index, st, w => ⟨st, by simp [Processor.prepareLoop, Proc.pure]⟩
  | a :: rest, hl, index, st, w => by
    obtain ⟨st1, h1⟩ := run_prepareArgument env fuel kernel index a st w hs (hl a (by simp))
    rcases hw : Processor.prepareArgument env fuel kernel index a st w with ⟨r, w1⟩
    rw [hw] at h1
    simp only at h1
    subst h1
    obtain ⟨st2, h2⟩ := run_prepareLoop env fuel kernel hs rest
      (fun b hb => hl b (by simp [hb])) ((index + 1) % UINT_SIZE) st1 w1
    refine ⟨st2, ?_⟩
    unfold Processor.prepareLoop
    rw [bind_ok hw]
    exact h2

/-! ## Dispatch and read-back -/

theorem frame_releaseArgs (env : Env) :
    ∀ (l : List InternalArg),
      Frame (fun e => e.isTail = true) (Processor.releaseArgs env l) (fun _ _ => True)
  | [] => by
    unfold Processor.releaseArgs
    exact frame_pure _ trivial
  | a :: rest => by
    unfold Processor.releaseArgs
    refine frame_bind (Q := fun _ _ => True) (frame_call env _ rfl (fun _ => trivial)) ?_
    intro _ _ _
    exact frame_releaseArgs env rest

theorem frame_saveImage (env : Env) (img : Image) (path : String) (P : Event → Prop) :
    Frame P (saveImage env img path) (fun _ _ => True) := by
  intro w
  refine ⟨[], ?_, by simp, fun _ _ => trivial⟩
  unfold saveImage
  split <;> simp

theorem frame_readImage (env : Env) (image width height n : Nat) :
    Frame (fun e => e.isRead = true) (readImage env image width height n)
      (fun _ _ => True) := by
  intro w
  exact ⟨[.enqueueReadImage image width height], by simp [readImage], by simp [Event.isRead],
    fun _ _ => trivial⟩

theorem isRead_isTail {e : Event} (h : e.isRead = true) : e.isTail = true := by
  cases e <;> simp_all [Event.isRead, Event.isTail]

theorem frame_readOutput (env : Env) (input : InputArg) (output : OutputArg) :
    Frame (fun e => e.isRead = true) (Processor.readOutput env input output)
      (fun _ _ => True) := by
  unfold Processor.readOutput
  split
  · exact frame_call env _ rfl (fun _ => trivial)
  · split
    · simp only [bind_eq, pure_eq]
      refine frame_bind (Q := fun _ _ => True) (frame_readImage env _ _ _ _) ?_
      intro r _ _
      refine frame_bind (Q := fun _ _ => True) (frame_liftRes _ (fun _ _ => trivial)) ?_
      intro rgb _ _
      refine frame_bind (Q := fun _ _ => True) (frame_saveImage env _ _ _) ?_
      intro _ _ _
      exact frame_pure _ trivial
    · exact frame_pure _ trivial

/-- The second half of `execute` makes the dispatch call first and only
read-back and release calls after it. -/
theorem dispatch_calls (env : Env) (kernel : Nat) (st : BindState) (w : World) :
    ∃ evs, (Processor.dispatch env kernel st w).2.calls
        = w.calls ++ Event.enqueueNDRangeKernel kernel st.input.dim
            ((List.range st.input.dim).map st.input.sizes) :: evs ∧
      ∀ e ∈ evs, e.isTail = true := by
  have hrest : Frame (fun e => e.isTail = true)
      (Proc.bind (Processor.checkError (env.status w.calls.length)) (fun _ =>
        Proc.bind (Processor.readOutput env st.input st.output) (fun error =>
          Proc.bind (Processor.checkError error) (fun _ =>
            Proc.bind (Processor.releaseArgs env st.internalArgs) (fun _ =>
              Proc.bind (call env (.releaseKernel kernel)) (fun _ => Proc.pure ()))))))
      (fun _ _ => True) := by
    refine frame_bind (Q := fun _ _ => True) (frame_checkError _ (fun _ => trivial)) ?_
    intro _ _ _
    refine frame_bind (Q := fun _ _ => True)
      (frame_weaken (frame_readOutput env _ _) (fun _ he => isRead_isTail he)
        (fun _ _ _ _ => trivial)) ?_
    intro _ _ _
    refine frame_bind (Q := fun _ _ => True) (frame_checkError _ (fun _ => trivial)) ?_
    intro _ _ _
    refine frame_bind (Q := fun _ _ => True) (frame_releaseArgs env _) ?_
    intro _ _ _
    refine frame_bind (Q := fun _ _ => True) (frame_call env _ rfl (fun _ => trivial)) ?_
    intro _ _ _
    exact frame_pure _ trivial
  obtain ⟨evs, h1, h2, _⟩ := hrest ⟨w.calls ++ [Event.enqueueNDRangeKernel kernel st.input.dim
    ((List.range st.input.dim).map st.input.sizes)], w.files⟩
  refine ⟨evs, ?_, h2⟩
  have hd : Processor.dispatch env kernel st w
      = (Proc.bind (Processor.checkError (env.status w.calls.length)) (fun _ =>
        Proc.bind (Processor.readOutput env st.input st.output) (fun error =>
          Proc.bind (Processor.checkError error) (fun _ =>
            Proc.bind (Processor.releaseArgs env st.internalArgs) (fun _ =>
              Proc.bind (call env (.releaseKernel kernel)) (fun _ => Proc.pure ()))))))
        ⟨w.calls ++ [Event.enqueueNDRangeKernel kernel st.input.dim
          ((List.range st.input.dim).map st.input.sizes)], w.files⟩ := by
    unfold Processor.dispatch
    simp only [bind_eq, pure_eq]
    have hc : call env (.enqueueNDRangeKernel kernel st.input.dim
        ((List.range st.input.dim).map st.input.sizes)) w
        = (.ok (env.status w.calls.length),
            ⟨w.calls ++ [Event.enqueueNDRangeKernel kernel st.input.dim
              ((List.range st.input.dim).map st.input.sizes)], w.files⟩) := by
      simp [call]
    rw [bind_ok hc]
  rw [hd, h1]
  simp

/-! ## What the loop does to the recorded domain and output -/

theorem bindEvent_not_dispatch {arg : KernelArg} {input : InputArg} {e : Event}
    (h : BindEvent arg input e) : e.isDispatch = false := by
  cases e <;> simp_all [BindEvent, Event.isDispatch]

/-- Without an INPUT argument that is a BUFFER or an IMAGE the recorded
domain is not touched. -/
theorem loop_input_unchanged (env : Env) (fuel kernel : Nat) (args : List KernelArg)
    (h : ∀ a ∈ args, a.direction = .INPUT → a.type = .RAW) (index : Nat) (st : BindState) :
    Frame (fun e => e.isDispatch = false)
      (Processor.prepareLoop env fuel kernel args index st)
      (fun st1 _ => st1.input = st.input) := by
  have hl := frame_prepareLoop env fuel kernel (fun e => e.isDispatch = false)
    (fun s _ => s.input = st.input) args
    (fun a ha idx s evs0 hs => by
      refine frame_weaken (frame_prepareArgument env fuel kernel idx a s)
        (fun e he => bindEvent_not_dispatch he) ?_
      intro s1 evs _ hpost
      have hcond : a.direction ≠ .INPUT ∨ a.type = .RAW := by
        by_cases hd : a.direction = .INPUT
        · exact Or.inr (h a ha hd)
        · exact Or.inl hd
      show s1.input = st.input
      rw [hpost.1 hcond]
      exact hs) index st [] rfl
  exact frame_weaken hl (fun e he => he) (fun s1 evs _ hs => hs)

/-- Without an OUTPUT argument that is a BUFFER or an IMAGE the output
record is not touched. -/
theorem loop_output_unchanged (env : Env) (fuel kernel : Nat) (args : List KernelArg)
    (h : ∀ a ∈ args, a.direction = .OUTPUT → a.type = .RAW) (index : Nat) (st : BindState) :
    Frame (fun e => e.isDispatch = false)
      (Processor.prepareLoop env fuel kernel args index st)
      (fun st1 _ => st1.output = st.output) := by
  have hl := frame_prepareLoop env fuel kernel (fun e => e.isDispatch = false)
    (fun s _ => s.output = st.output) args
    (fun a ha idx s evs0 hs => by
      refine frame_weaken (frame_prepareArgument env fuel kernel idx a s)
        (fun e he => bindEvent_not_dispatch he) ?_
      intro s1 evs _ hpost
      have hcond : a.direction ≠ .OUTPUT ∨ a.type = .RAW := by
        by_cases hd : a.direction = .OUTPUT
        · exact Or.inr (h a ha hd)
        · exact Or.inl hd
      show s1.output = st.output
      rw [hpost.2.1 hcond]
      exact hs) index st [] rfl
  exact frame_weaken hl (fun e he => he) (fun s1 evs _ hs => hs)

/-- One iteration never resets a recorded domain. -/
theorem step_keeps_dim (env : Env) (fuel kernel index : Nat) (arg : KernelArg)
    (st : BindState) (h : st.input.dim ≠ 0) :
    Frame (fun e => e.isDispatch = false)
      (Processor.prepareArgument env fuel kernel index arg st)
      (fun st1 _ => st1.input.dim ≠ 0) := by
  refine frame_weaken (frame_prepareArgument env fuel kernel index arg st)
    (fun e he => bindEvent_not_dispatch he) ?_
  intro s1 evs _ hpost
  obtain ⟨h1, _, h3, h4, _, _⟩ := hpost
  by_cases hd : arg.direction = .INPUT
  · rcases argType_cases arg.type with ht | ht | ht
    · rw [h1 (Or.inr ht)]
      exact h
    · rw [(h3 hd ht).1]
      decide
    · obtain ⟨_, _, hdim, _⟩ := h4 hd ht
      rw [hdim]
      decide
  · rw [h1 (Or.inl hd)]
    exact h

/-- An INPUT argument that is a BUFFER or an IMAGE leaves a recorded
domain behind. -/
theorem loop_input_set (env : Env) (fuel kernel : Nat) (args : List KernelArg)
    (h : ∃ a ∈ args, a.direction = .INPUT ∧ a.type ≠ .RAW) (index : Nat) (st : BindState) :
    Frame (fun e => e.isDispatch = false)
      (Processor.prepareLoop env fuel kernel args index st)
      (fun st1 _ => st1.input.dim ≠ 0) := by
  obtain ⟨a, ha, hd, ht⟩ := h
  have hl := frame_prepareLoop_eventually env fuel kernel (fun e => e.isDispatch = false)
    (fun _ => True) (fun s _ => s.input.dim ≠ 0) a (fun _ _ _ hk => hk)
    (fun idx s _ => by
      refine frame_weaken (frame_prepareArgument env fuel kernel idx a s)
        (fun e he => bindEvent_not_dispatch he) ?_
      intro s1 evs _ hpost
      obtain ⟨_, _, h3, h4, _, _⟩ := hpost
      refine ⟨trivial, ?_⟩
      rcases argType_cases a.type with ht1 | ht1 | ht1
      · exact absurd ht1 ht
      · rw [(h3 hd ht1).1]
        decide
      · obtain ⟨_, _, hdim, _⟩ := h4 hd ht1
        rw [hdim]
        decide)
    args ha
    (fun b _ idx s _ => frame_weaken (frame_prepareArgument env fuel kernel idx b s)
      (fun e he => bindEvent_not_dispatch he) (fun _ _ _ _ => trivial))
    (fun b _ idx s _ _ hk => frame_weaken (step_keeps_dim env fuel kernel idx b s hk)
      (fun e he => he) (fun _ _ _ hq => ⟨trivial, hq⟩))
    index st trivial
  exact frame_weaken hl (fun e he => he) (fun _ _ _ hq => hq.2)

/-- One iteration never resets a recorded output handle. -/
theorem step_keeps_output (env : Env) (fuel kernel index : Nat) (arg : KernelArg)
    (st : BindState) (h : st.output.buffer ≠ 0) :
    Frame (fun e => e.isDispatch = false)
      (Processor.prepareArgument env fuel kernel index arg st)
      (fun st1 _ => st1.output.buffer ≠ 0) := by
  refine frame_weaken (frame_prepareArgument env fuel kernel index arg st)
    (fun e he => bindEvent_not_dispatch he) ?_
  intro s1 evs _ hpost
  obtain ⟨_, h2, _, _, h5, _⟩ := hpost
  by_cases hd : arg.direction = .OUTPUT
  · by_cases ht : arg.type = .RAW
    · rw [h2 (Or.inr ht)]
      exact h
    · exact (h5 hd ht).1
  · rw [h2 (Or.inl hd)]
    exact h

/-- An OUTPUT argument that is a BUFFER or an IMAGE leaves a non-null output
handle behind. -/
theorem loop_output_set (env : Env) (fuel kernel : Nat) (args : List KernelArg)
    (h : ∃ a ∈ args, a.direction = .OUTPUT ∧ a.type ≠ .RAW) (index : Nat) (st : BindState) :
    Frame (fun e => e.isDispatch = false)
      (Processor.prepareLoop env fuel kernel args index st)
      (fun st1 _ => st1.output.buffer ≠ 0) := by
  obtain ⟨a, ha, hd, ht⟩ := h
  have hl := frame_prepareLoop_eventually env fuel kernel (fun e => e.isDispatch = false)
    (fun _ => True) (fun s _ => s.output.buffer ≠ 0) a (fun _ _ _ hk => hk)
    (fun idx s _ => by
      refine frame_weaken (frame_prepareArgument env fuel kernel idx a s)
        (fun e he => bindEvent_not_dispatch he) ?_
      intro s1 evs _ hpost
      exact ⟨trivial, (hpost.2.2.2.2.1 hd ht).1⟩)
    args ha
    (fun b _ idx s _ => frame_weaken (frame_prepareArgument env fuel kernel idx b s)
      (fun e he => bindEvent_not_dispatch he) (fun _ _ _ _ => trivial))
    (fun b _ idx s _ _ hk => frame_weaken (step_keeps_output env fuel kernel idx b s hk)
      (fun e he => he) (fun _ _ _ hq => ⟨trivial, hq⟩))
    index st trivial
  exact frame_weaken hl (fun e he => he) (fun _ _ _ hq => hq.2)

/-! ## The whole of `execute` -/

theorem prepareArguments_eq {env : Env} {fuel kernel : Nat} {args : List KernelArg}
    {st st1 : BindState} {w w2 : World}
    (h : Processor.prepareLoop env fuel kernel args 0 st w = (.ok st1, w2)) :
    Processor.prepareArguments env fuel kernel args st w
      = if st1.input.dim = 0 then (.throw (.msg "No input parameter specified"), w2)
        else if st1.output.buffer = 0 then (.throw (.msg "No output parameter specified"), w2)
        else (.ok st1, w2) := by
  unfold Processor.prepareArguments
  simp only [bind_eq, pure_eq]
  rw [bind_ok h]
  split
  · rfl
  · split <;> rfl

/-- When `clCreateKernel` succeeds, `execute` is the binding followed by the
dispatch, run after the creation call. -/
theorem execute_eq (env : Env) (fuel : Nat) (self : Processor) (name : String)
    (args : List KernelArg) (w : World) (hk : env.status w.calls.length = 0) :
    Processor.execute env fuel self name args w
      = Proc.bind
          (Processor.prepareArguments env fuel (w.calls.length + 1) args (initialState env))
          (Processor.dispatch env (w.calls.length + 1))
          ⟨w.calls ++ [.createKernel self.program name (w.calls.length + 1)], w.files⟩ := by
  unfold Processor.execute
  simp only [bind_eq]
  have hc : create env (.createKernel self.program name) w
      = (.ok (w.calls.length + 1, 0),
          ⟨w.calls ++ [.createKernel self.program name (w.calls.length + 1)], w.files⟩) := by
    simp [create, hk]
  rw [bind_ok hc]
  have hz : Processor.checkError 0
      ⟨w.calls ++ [.createKernel self.program name (w.calls.length + 1)], w.files⟩
      = (.ok (), ⟨w.calls ++ [.createKernel self.program name (w.calls.length + 1)],
          w.files⟩) := by
    simp [Processor.checkError]
  rw [bind_ok hz]

/-- The binding fails, whatever the runtime answers, when the list has no
INPUT argument or no OUTPUT argument. -/
theorem frame_prepareArguments_missing (env : Env) (fuel kernel : Nat)
    (args : List KernelArg)
    (h : (∀ a ∈ args, a.direction ≠ .INPUT) ∨ (∀ a ∈ args, a.direction ≠ .OUTPUT)) :
    Frame (fun e => e.isDispatch = false)
      (Processor.prepareArguments env fuel kernel args (initialState env))
      (fun _ _ => False) := by
  unfold Processor.prepareArguments
  simp only [bind_eq, pure_eq]
  refine frame_bind (Q := fun st1 _ => st1.input.dim = 0 ∨ st1.output.buffer = 0) ?_ ?_
  · rcases h with h | h
    · refine frame_weaken (loop_input_unchanged env fuel kernel args
        (fun a ha hd => absurd hd (h a ha)) 0 (initialState env)) (fun e he => he) ?_
      intro st1 _ _ hq
      left
      rw [hq]
      rfl
    · refine frame_weaken (loop_output_unchanged env fuel kernel args
        (fun a ha hd => absurd hd (h a ha)) 0 (initialState env)) (fun e he => he) ?_
      intro st1 _ _ hq
      right
      rw [hq]
      rfl
  · intro st1 evs1 hq
    split
    · exact frame_throwError _
    · split
      · exact frame_throwError _
      · rename_i h1 h2
        rcases hq with hq | hq
        · exact absurd hq h1
        · exact absurd hq h2

theorem frame_execute_missing (env : Env) (fuel : Nat) (self : Processor) (name : String)
    (args : List KernelArg)
    (h : (∀ a ∈ args, a.direction ≠ .INPUT) ∨ (∀ a ∈ args, a.direction ≠ .OUTPUT)) :
    Frame (fun e => e.isDispatch = false) (Processor.execute env fuel self name args)
      (fun _ _ => False) := by
  unfold Processor.execute
  simp only [bind_eq]
  refine frame_bind (Q := fun _ _ => True) (frame_create env _ (fun _ => rfl)
    (fun _ _ _ => trivial)) ?_
  intro k _ _
  refine frame_bind (Q := fun _ _ => True) (frame_checkError _ (fun _ => trivial)) ?_
  intro _ _ _
  refine frame_bind (Q := fun _ _ => False)
    (frame_prepareArguments_missing env fuel k.1 args h) ?_
  intro _ _ hf
  exact hf.elim

/-- The shape of a run of `execute` in which every runtime call succeeds and
every image loads: the loop ends normally, and the outcome is decided by the
two checks after it. -/
theorem execute_success (env : Env) (fuel : Nat) (self : Processor) (name : String)
    (args : List KernelArg) (w : World) (hs : ∀ k, env.status k = 0)
    (hl : ∀ a ∈ args, Loadable env fuel a) :
    ∃ st1 w2,
      Processor.prepareLoop env fuel (w.calls.length + 1) args 0 (initialState env)
        ⟨w.calls ++ [.createKernel self.program name (w.calls.length + 1)], w.files⟩
        = (.ok st1, w2) ∧
      Processor.execute env fuel self name args w
        = if st1.input.dim = 0 then (.throw (.msg "No input parameter specified"), w2)
          else if st1.output.buffer = 0 then
            (.throw (.msg "No output parameter specified"), w2)
          else Processor.dispatch env (w.calls.length + 1) st1 w2 := by
  obtain ⟨st1, h1⟩ := run_prepareLoop env fuel (w.calls.length + 1) hs args hl 0
    (initialState env)
    ⟨w.calls ++ [.createKernel self.program name (w.calls.length + 1)], w.files⟩
  rcases hw : Processor.prepareLoop env fuel (w.calls.length + 1) args 0 (initialState env)
    ⟨w.calls ++ [.createKernel self.program name (w.calls.length + 1)], w.files⟩ with ⟨r, w2⟩
  rw [hw] at h1
  simp only at h1
  rw [h1] at hw
  refine ⟨st1, w2, hw, ?_⟩
  rw [execute_eq env fuel self name args w (hs _)]
  unfold Proc.bind
  rw [prepareArguments_eq hw]
  by_cases hd : st1.input.dim = 0
  · simp [hd]
  · by_cases hb : st1.output.buffer = 0
    · simp [hd, hb]
    · simp [hd, hb]

/-! ## The domain recorded from the single INPUT argument -/

theorem bind_assoc {α β γ : Type} (m : Proc α) (f : α → Proc β) (g : β → Proc γ) :
    Proc.bind (Proc.bind m f) g = Proc.bind m (fun a => Proc.bind (f a) g) := by
  funext w
  unfold Proc.bind
  rcases m w with ⟨r, w1⟩
  cases r <;> rfl

theorem prepareLoop_append (env : Env) (fuel kernel : Nat) :
    ∀ (l1 l2 : List KernelArg) (index : Nat), ∃ index1, ∀ st,
      Processor.prepareLoop env fuel kernel (l1 ++ l2) index st
        = Proc.bind (Processor.prepareLoop env fuel kernel l1 index st)
            (fun st1 => Processor.prepareLoop env fuel kernel l2 index1 st1)
  | [], l2, index => ⟨index, fun st => by
      funext w
      simp [Processor.prepareLoop, Proc.bind, Proc.pure]⟩
  | a :: l1, l2, index => by
    obtain ⟨i1, h⟩ := prepareLoop_append env fuel kernel l1 l2 ((index + 1) % UINT_SIZE)
    refine ⟨i1, fun st => ?_⟩
    simp only [List.cons_append, Processor.prepareLoop]
    rw [bind_assoc]
    exact congrArg (Proc.bind (Processor.prepareArgument env fuel kernel index a st)) (funext h)

/-- The single INPUT argument, a BUFFER, decides the recorded domain. -/
theorem loop_buffer_domain (env : Env) (fuel kernel : Nat) (pre post : List KernelArg)
    (inp : KernelArg) (hpre : ∀ a ∈ pre, a.direction ≠ .INPUT)
    (hpost : ∀ a ∈ post, a.direction ≠ .INPUT) (hin : inp.direction = .INPUT)
    (ht : inp.type = .BUFFER) (index : Nat) (st : BindState) :
    Frame (fun e => e.isDispatch = false)
      (Processor.prepareLoop env fuel kernel (pre ++ inp :: post) index st)
      (fun st1 _ => st1.input.dim = 1 ∧ st1.input.sizes 0 = inp.size) := by
  have hkeep : ∀ b ∈ pre ++ inp :: post, ∀ idx s,
      s.input.dim = 1 ∧ s.input.sizes 0 = inp.size →
      Frame (fun e => e.isDispatch = false)
        (Processor.prepareArgument env fuel kernel idx b s)
        (fun s1 _ => s1.input.dim = 1 ∧ s1.input.sizes 0 = inp.size) := by
    intro b hb idx s hk
    refine frame_weaken (frame_prepareArgument env fuel kernel idx b s)
      (fun e he => bindEvent_not_dispatch he) ?_
    intro s1 evs _ hpost1
    rcases List.mem_append.mp hb with h | h
    · rw [hpost1.1 (Or.inl (hpre b h))]
      exact hk
    · rcases List.mem_cons.mp h with h | h
      · subst h
        exact hpost1.2.2.1 hin ht
      · rw [hpost1.1 (Or.inl (hpost b h))]
        exact hk
  have hl := frame_prepareLoop_eventually env fuel kernel (fun e => e.isDispatch = false)
    (fun _ => True) (fun s _ => s.input.dim = 1 ∧ s.input.sizes 0 = inp.size) inp
    (fun _ _ _ hk => hk)
    (fun idx s _ => by
      refine frame_weaken (frame_prepareArgument env fuel kernel idx inp s)
        (fun e he => bindEvent_not_dispatch he) ?_
      intro s1 evs _ hpost1
      exact ⟨trivial, hpost1.2.2.1 hin ht⟩)
    (pre ++ inp :: post) (by simp)
    (fun b _ idx s _ => frame_weaken (frame_prepareArgument env fuel kernel idx b s)
      (fun e he => bindEvent_not_dispatch he) (fun _ _ _ _ => trivial))
    (fun b hb idx s _ _ hk => frame_weaken (hkeep b hb idx s hk)
      (fun e he => he) (fun _ _ _ hq => ⟨trivial, hq⟩))
    index st trivial
  exact frame_weaken hl (fun e he => he) (fun _ _ _ hq => hq.2)

theorem argumentImage_input (env : Env) (fuel : Nat) (arg : KernelArg) (input : InputArg)
    (img rgba : Image) (hd : arg.direction ≠ .OUTPUT)
    (h1 : loadImage fuel env.uninit arg.data (env.file arg.data) = .ok img)
    (h2 : RGBtoRGBA img = some rgba) :
    Processor.argumentImage env fuel arg input = .ok rgba ∧ rgba.width = img.width ∧
      rgba.height = img.height := by
  refine ⟨by simp [Processor.argumentImage, hd, h1, h2], ?_⟩
  unfold RGBtoRGBA at h2
  cases hp : rgbToRgbaPixels img.pixel with
  | none => simp [hp] at h2
  | some p =>
    simp only [hp, Option.map_some', Option.some.injEq] at h2
    subst h2
    exact ⟨rfl, rfl⟩

theorem bindEvent_sized_of_not_output {arg : KernelArg} {input : InputArg} {e : Event}
    (W H : Nat) (hn : ¬ (arg.direction = .OUTPUT ∧ arg.type = .IMAGE))
    (h : BindEvent arg input e) : OutputImageSized W H e := by
  intro w h1 host hd he
  subst he
  simp only [BindEvent] at h
  obtain ⟨ht, h2⟩ := h
  by_cases hdir : arg.direction = .OUTPUT
  · exact absurd ⟨hdir, ht⟩ hn
  · simp [hdir] at h2

theorem bindEvent_sized_of_domain {arg : KernelArg} {input : InputArg} {e : Event}
    (W H : Nat) (hW : W < UINT_SIZE) (hH : H < UINT_SIZE) (h0 : input.sizes 0 = W)
    (h1 : input.sizes 1 = H) (h : BindEvent arg input e) : OutputImageSized W H e := by
  intro w h2 host hd he
  subst he
  simp only [BindEvent] at h
  obtain ⟨_, h3⟩ := h
  by_cases hdir : arg.direction = .OUTPUT
  · simp only [hdir, if_true, h0, h1, Nat.mod_eq_of_lt hW, Nat.mod_eq_of_lt hH] at h3
    exact ⟨h3.2.1, h3.2.2.1⟩
  · simp [hdir] at h3

/-- The single INPUT argument, an IMAGE, decides the recorded domain. -/
theorem loop_image_domain (env : Env) (fuel kernel : Nat) (pre post : List KernelArg)
    (inp : KernelArg) (img rgba : Image) (hpre : ∀ a ∈ pre, a.direction ≠ .INPUT)
    (hpost : ∀ a ∈ post, a.direction ≠ .INPUT) (hin : inp.direction = .INPUT)
    (ht : inp.type = .IMAGE)
    (h1 : loadImage fuel env.uninit inp.data (env.file inp.data) = .ok img)
    (h2 : RGBtoRGBA img = some rgba) (index : Nat) (st : BindState) :
    Frame (fun e => e.isDispatch = false)
      (Processor.prepareLoop env fuel kernel (pre ++ inp :: post) index st)
      (fun st1 _ => st1.input.dim = 2 ∧ st1.input.sizes 0 = img.width ∧
        st1.input.sizes 1 = img.height) := by
  have hinp : ∀ idx s, Frame (fun e => e.isDispatch = false)
      (Processor.prepareArgument env fuel kernel idx inp s)
      (fun s1 _ => s1.input.dim = 2 ∧ s1.input.sizes 0 = img.width ∧
        s1.input.sizes 1 = img.height) := by
    intro idx s
    refine frame_weaken (frame_prepareArgument env fuel kernel idx inp s)
      (fun e he => bindEvent_not_dispatch he) ?_
    intro s1 evs _ hpost1
    obtain ⟨image, hi, hdim, hs0, hs1⟩ := hpost1.2.2.2.1 hin ht
    obtain ⟨ha, hw, hh⟩ := argumentImage_input env fuel inp s.input img rgba
      (by rw [hin]; decide) h1 h2
    rw [ha] at hi
    simp only [Res.ok.injEq] at hi
    subst hi
    exact ⟨hdim, hs0.trans hw, hs1.trans hh⟩
  have hkeep : ∀ b ∈ pre ++ inp :: post, ∀ idx s,
      (s.input.dim = 2 ∧ s.input.sizes 0 = img.width ∧ s.input.sizes 1 = img.height) →
      Frame (fun e => e.isDispatch = false)
        (Processor.prepareArgument env fuel kernel idx b s)
        (fun s1 _ => s1.input.dim = 2 ∧ s1.input.sizes 0 = img.width ∧
          s1.input.sizes 1 = img.height) := by
    intro b hb idx s hk
    rcases List.mem_append.mp hb with h | h
    · refine frame_weaken (frame_prepareArgument env fuel kernel idx b s)
        (fun e he => bindEvent_not_dispatch he) ?_
      intro s1 evs _ hpost1
      rw [hpost1.1 (Or.inl (hpre b h))]
      exact hk
    · rcases List.mem_cons.mp h with h | h
      · subst h
        exact hinp idx s
      · refine frame_weaken (frame_prepareArgument env fuel kernel idx b s)
          (fun e he => bindEvent_not_dispatch he) ?_
        intro s1 evs _ hpost1
        rw [hpost1.1 (Or.inl (hpost b h))]
        exact hk
  have hl := frame_prepareLoop_eventually env fuel kernel (fun e => e.isDispatch = false)
    (fun _ => True)
    (fun s _ => s.input.dim = 2 ∧ s.input.sizes 0 = img.width ∧ s.input.sizes 1 = img.height)
    inp (fun _ _ _ hk => hk)
    (fun idx s _ => frame_weaken (hinp idx s) (fun e he => he) (fun _ _ _ hq => ⟨trivial, hq⟩))
    (pre ++ inp :: post) (by simp)
    (fun b _ idx s _ => frame_weaken (frame_prepareArgument env fuel kernel idx b s)
      (fun e he => bindEvent_not_dispatch he) (fun _ _ _ _ => trivial))
    (fun b hb idx s _ _ hk => frame_weaken (hkeep b hb idx s hk)
      (fun e he => he) (fun _ _ _ hq => ⟨trivial, hq⟩))
    index st trivial
  exact frame_weaken hl (fun e he => he) (fun _ _ _ hq => hq.2)

/-- After the single INPUT argument, an IMAGE that loads as `W` x `H`, every
OUTPUT image is created `W` x `H`; before it none is created when no OUTPUT
IMAGE argument stands there. -/
theorem loop_output_images (env : Env) (fuel kernel : Nat) (pre post : List KernelArg)
    (inp : KernelArg) (img rgba : Image) (hpost : ∀ a ∈ post, a.direction ≠ .INPUT)
    (hin : inp.direction = .INPUT) (ht : inp.type = .IMAGE)
    (h1 : loadImage fuel env.uninit inp.data (env.file inp.data) = .ok img)
    (h2 : RGBtoRGBA img = some rgba) (hW : img.width < UINT_SIZE) (hH : img.height < UINT_SIZE)
    (hout : ∀ a ∈ pre, ¬ (a.direction = .OUTPUT ∧ a.type = .IMAGE))
    (index : Nat) (st : BindState) :
    Frame (OutputImageSized img.width img.height)
      (Processor.prepareLoop env fuel kernel (pre ++ inp :: post) index st)
      (fun _ evs => (∃ a ∈ post, a.direction = .OUTPUT ∧ a.type = .IMAGE) →
        ∃ hd, Event.createImage2D CL_MEM_WRITE_ONLY img.width img.height none hd ∈ evs) := by
  obtain ⟨i1, happ⟩ := prepareLoop_append env fuel kernel pre (inp :: post) index
  rw [happ st]
  -- before the input
  have hpre := frame_prepareLoop env fuel kernel (OutputImageSized img.width img.height)
    (fun _ _ => True) pre
    (fun b hb idx s _ _ => frame_weaken (frame_prepareArgument env fuel kernel idx b s)
      (fun e he => bindEvent_sized_of_not_output _ _ (hout b hb) he) (fun _ _ _ _ => trivial))
    index st [] trivial
  refine frame_bind (Q := fun _ _ => True)
    (frame_weaken hpre (fun e he => he) (fun _ _ _ _ => trivial)) ?_
  intro st1 evs1 _
  -- the input itself
  unfold Processor.prepareLoop
  refine frame_bind (Q := fun s _ => s.input.sizes 0 = img.width ∧
    s.input.sizes 1 = img.height) ?_ ?_
  · refine frame_weaken (frame_prepareArgument env fuel kernel i1 inp st1)
      (fun e he => bindEvent_sized_of_not_output _ _ (by rw [hin]; simp) he) ?_
    intro s1 evs _ hpost1
    obtain ⟨image, hi, _, hs0, hs1⟩ := hpost1.2.2.2.1 hin ht
    obtain ⟨ha, hw, hh⟩ := argumentImage_input env fuel inp st1.input img rgba
      (by rw [hin]; decide) h1 h2
    rw [ha] at hi
    simp only [Res.ok.injEq] at hi
    subst hi
    exact ⟨hs0.trans hw, hs1.trans hh⟩
  · intro st2 evs2 hdom
    -- after the input
    have hstep : ∀ b ∈ post, ∀ idx s,
        (s.input.sizes 0 = img.width ∧ s.input.sizes 1 = img.height) →
        Frame (OutputImageSized img.width img.height)
          (Processor.prepareArgument env fuel kernel idx b s)
          (fun s1 evs => (s1.input.sizes 0 = img.width ∧ s1.input.sizes 1 = img.height) ∧
            (b.direction = .OUTPUT → b.type = .IMAGE →
              Event.createImage2D CL_MEM_WRITE_ONLY img.width img.height none
                s1.output.buffer ∈ evs)) := by
      intro b hb idx s hs
      refine frame_weaken (frame_prepareArgument env fuel kernel idx b s)
        (fun e he => bindEvent_sized_of_domain _ _ hW hH hs.1 hs.2 he) ?_
      intro s1 evs _ hpost1
      refine ⟨by rw [hpost1.1 (Or.inl (hpost b hb))]; exact hs, ?_⟩
      intro hd hty
      have := hpost1.2.2.2.2.2 hd hty
      rwa [hs.1, hs.2, Nat.mod_eq_of_lt hW, Nat.mod_eq_of_lt hH] at this
    by_cases hex : ∃ a ∈ post, a.direction = .OUTPUT ∧ a.type = .IMAGE
    · obtain ⟨out, hmem, hod, hot⟩ := hex
      have hl := frame_prepareLoop_eventually env fuel kernel
        (OutputImageSized img.width img.height)
        (fun s => s.input.sizes 0 = img.width ∧ s.input.sizes 1 = img.height)
        (fun _ evs => ∃ hd, Event.createImage2D CL_MEM_WRITE_ONLY img.width img.height none
          hd ∈ evs) out
        (fun _ evs0 evs hk => by
          obtain ⟨hd, hm⟩ := hk
          exact ⟨hd, List.mem_append_right _ hm⟩)
        (fun idx s hs => frame_weaken (hstep out hmem idx s hs) (fun e he => he)
          (fun s1 _ _ hq => ⟨hq.1, ⟨s1.output.buffer, hq.2 hod hot⟩⟩))
        post hmem
        (fun b hb idx s hs => frame_weaken (hstep b hb idx s hs) (fun e he => he)
          (fun _ _ _ hq => hq.1))
        (fun b hb idx s evs0 hs hk => frame_weaken (hstep b hb idx s hs) (fun e he => he)
          (fun _ evs _ hq => ⟨hq.1, by
            obtain ⟨hd, hm⟩ := hk
            exact ⟨hd, List.mem_append_left _ hm⟩⟩))
        ((i1 + 1) % UINT_SIZE) st2 hdom
      refine frame_weaken hl (fun e he => he) ?_
      intro s3 evs3 _ hq _
      obtain ⟨hd, hm⟩ := hq.2
      exact ⟨hd, List.mem_append_right _ (List.mem_append_right _ hm)⟩
    · have hl := frame_prepareLoop env fuel kernel (OutputImageSized img.width img.height)
        (fun s _ => s.input.sizes 0 = img.width ∧ s.input.sizes 1 = img.height) post
        (fun b hb idx s _ hs => frame_weaken (hstep b hb idx s hs) (fun e he => he)
          (fun _ _ _ hq => hq.1))
        ((i1 + 1) % UINT_SIZE) st2 [] hdom
      refine frame_weaken hl (fun e he => he) ?_
      intro s3 evs3 _ _ hex1
      exact absurd hex1 hex

/-- An OUTPUT image bound before any input is created with the extents found
in the uninitialised `sizes` array, whatever they are. -/
theorem output_first_uses_uninitialised (env : Env) (fuel kernel : Nat) (w : World)
    (hs : ∀ k, env.status k = 0) :
    (Processor.prepareArgument env fuel kernel 0 imageOut (initialState env) w).2.calls
      = w.calls ++
        [Event.createImage2D CL_MEM_WRITE_ONLY (env.sizes0 0 % UINT_SIZE)
          (env.sizes0 1 % UINT_SIZE) none (w.calls.length + 1),
         Event.setKernelArg kernel 0 sizeofClMem (.mem (w.calls.length + 1))] := by
  have hf : CL_MEM_WRITE_ONLY &&& (UINT_MAX - CL_MEM_COPY_HOST_PTR)
      = CL_MEM_WRITE_ONLY := by decide
  simp [Processor.prepareArgument, Processor.prepareImage, Processor.argumentImage, imageOut,
    initialState, bind_eq, pure_eq, Proc.bind, Proc.pure, call, create, liftRes,
    Processor.checkError, hs, hf]

/-! ## Release on the success path -/

theorem frame_both {α : Type} {P1 P2 : Event → Prop} {m : Proc α}
    {Q1 Q2 : α → List Event → Prop} (h1 : Frame P1 m Q1) (h2 : Frame P2 m Q2) :
    Frame (fun e => P1 e ∧ P2 e) m (fun a evs => Q1 a evs ∧ Q2 a evs) := by
  intro w
  obtain ⟨evs1, c1, p1, q1⟩ := h1 w
  obtain ⟨evs2, c2, p2, q2⟩ := h2 w
  have he : evs1 = evs2 := List.append_cancel_left (c1.symm.trans c2)
  subst he
  exact ⟨evs1, c1, fun e he => ⟨p1 e he, p2 e he⟩, fun a ha => ⟨q1 a ha, q2 a ha⟩⟩

theorem filterMap_none {f : Event → Option Nat} :
    ∀ (evs : List Event), (∀ e ∈ evs, f e = none) → evs.filterMap f = []
  | [], _ => rfl
  | e :: rest, h => by
    have h1 : f e = none := h e (by simp)
    have h2 := filterMap_none rest (fun x hx => h x (by simp [hx]))
    simp [List.filterMap_cons, h1, h2]

theorem bindEvent_quiet {arg : KernelArg} {input : InputArg} {e : Event}
    (h : BindEvent arg input e) :
    e.releasedMem = none ∧ e.createdKernel = none ∧ e.releasedKernel = none := by
  cases e <;> simp_all [BindEvent, Event.releasedMem, Event.createdKernel, Event.releasedKernel]

theorem frame_prepareBuffer_created (env : Env) (arg : KernelArg) (flags : Nat)
    (input : InputArg) :
    Frame (fun _ => True) (Processor.prepareBuffer env arg flags input)
      (fun r evs => (r.2.1 = 0 → r.1 ≠ 0) ∧
        evs.filterMap Event.createdMem = if r.1 = 0 then [] else [r.1]) := by
  unfold Processor.prepareBuffer
  simp only [bind_eq, pure_eq]
  refine frame_bind (Q := fun r evs => (r.2 = 0 → r.1 ≠ 0) ∧
    evs.filterMap Event.createdMem = if r.1 = 0 then [] else [r.1])
    (frame_create env _ (fun _ => trivial) (fun h st hh => ⟨hh, by
      by_cases h0 : h = 0 <;> simp [Event.createdMem, h0]⟩)) ?_
  intro r evs1 hr
  refine frame_bind (Q := fun error evs => (error = 0 → r.1 ≠ 0) ∧
    evs.filterMap Event.createdMem = []) ?_ ?_
  · split
    · exact frame_pure _ ⟨hr.1, rfl⟩
    · refine frame_bind (Q := fun _ evs => r.1 ≠ 0 ∧ evs = [])
        (frame_checkError _ (fun h => ⟨hr.1 h, rfl⟩)) ?_
      intro _ evs2 hne
      refine frame_call env _ trivial (fun _ => ⟨fun _ => hne.1, ?_⟩)
      rw [hne.2]
      simp [Event.createdMem]
  · intro error evs2 he
    refine frame_pure _ ⟨he.1, ?_⟩
    simp only [List.append_nil, List.filterMap_append, he.2, hr.2]

theorem frame_prepareImage_created (env : Env) (fuel : Nat) (arg : KernelArg) (flags : Nat)
    (input : InputArg) :
    Frame (fun _ => True) (Processor.prepareImage env fuel arg flags input)
      (fun r evs => (r.2.1 = 0 → r.1 ≠ 0) ∧
        evs.filterMap Event.createdMem = if r.1 = 0 then [] else [r.1]) := by
  unfold Processor.prepareImage
  simp only [bind_eq, pure_eq]
  refine frame_bind (Q := fun _ evs => evs = []) (frame_liftRes _ (fun _ _ => rfl)) ?_
  intro image evs0 h0
  refine frame_bind (Q := fun r evs => (r.2 = 0 → r.1 ≠ 0) ∧
    evs.filterMap Event.createdMem = if r.1 = 0 then [] else [r.1])
    (frame_create env _ (fun _ => trivial) (fun h st hh => ⟨hh, by
      by_cases h0 : h = 0 <;> simp [Event.createdMem, h0]⟩)) ?_
  intro r evs1 hr
  refine frame_bind (Q := fun error evs => (error = 0 → r.1 ≠ 0) ∧
    evs.filterMap Event.createdMem = []) ?_ ?_
  · split
    · refine frame_bind (Q := fun _ evs => r.1 ≠ 0 ∧ evs = [])
        (frame_checkError _ (fun h => ⟨hr.1 h, rfl⟩)) ?_
      intro _ evs2 hne
      refine frame_call env _ trivial (fun _ => ⟨fun _ => hne.1, ?_⟩)
      rw [hne.2]
      simp [Event.createdMem]
    · exact frame_pure _ ⟨hr.1, rfl⟩
  · intro error evs2 he
    refine frame_pure _ ⟨he.1, ?_⟩
    simp only [List.append_nil, List.filterMap_append, he.2, hr.2, h0, List.filterMap_nil,
      List.nil_append]

/-- One iteration records in `internalArgs` exactly the memory objects it
has created when it ends normally. -/
theorem frame_prepareArgument_created (env : Env) (fuel kernel index : Nat) (arg : KernelArg)
    (st : BindState) :
    Frame (fun _ => True) (Processor.prepareArgument env fuel kernel index arg st)
      (fun st1 evs => st1.internalArgs.map InternalArg.buffer
        = st.internalArgs.map InternalArg.buffer ++ evs.filterMap Event.createdMem) := by
  unfold Processor.prepareArgument
  split
  · simp only [bind_eq, pure_eq]
    refine frame_bind (Q := fun r evs => (r.2.1 = 0 → r.1 ≠ 0) ∧
      evs.filterMap Event.createdMem = if r.1 = 0 then [] else [r.1]) ?_ ?_
    · split
      · exact frame_prepareBuffer_created env arg _ st.input
      · exact frame_prepareImage_created env fuel arg _ st.input
    · intro r evs1 hr
      refine frame_bind (Q := fun _ evs => r.1 ≠ 0 ∧ evs = [])
        (frame_checkError _ (fun h => ⟨hr.1 h, rfl⟩)) ?_
      intro _ evs2 hne
      refine frame_bind (Q := fun _ evs => evs.filterMap Event.createdMem = [])
        (frame_call env _ trivial (fun _ => by simp [Event.createdMem])) ?_
      intro error evs3 h3
      refine frame_bind (Q := fun _ evs => evs = []) (frame_checkError _ (fun _ => rfl)) ?_
      intro _ evs4 h4
      refine frame_pure _ ?_
      simp only [List.append_nil, List.filterMap_append, hr.2, hne.1, hne.2, h3, h4,
        if_false, List.filterMap_nil, List.map_append, List.map_cons, List.map_nil]
  · simp only [bind_eq, pure_eq]
    refine frame_bind (Q := fun _ evs => evs.filterMap Event.createdMem = [])
      (frame_call env _ trivial (fun _ => by simp [Event.createdMem])) ?_
    intro error evs1 h1
    refine frame_bind (Q := fun _ evs => evs = []) (frame_checkError _ (fun _ => rfl)) ?_
    intro _ evs2 h2
    refine frame_pure _ ?_
    simp only [List.append_nil, List.filterMap_append, h1, h2, List.filterMap_nil]

/-- After the loop `internalArgs` lists the memory objects created, and no
object has been released and no kernel created. -/
theorem frame_prepareLoop_created (env : Env) (fuel kernel : Nat) (args : List KernelArg)
    (index : Nat) (st : BindState) (hst : st.internalArgs = []) :
    Frame (fun _ => True) (Processor.prepareLoop env fuel kernel args index st)
      (fun st1 evs => st1.internalArgs.map InternalArg.buffer
          = evs.filterMap Event.createdMem ∧
        evs.filterMap Event.releasedMem = [] ∧ evs.filterMap Event.createdKernel = [] ∧
        evs.filterMap Event.releasedKernel = []) := by
  have hl := frame_prepareLoop env fuel kernel
    (fun e => e.releasedMem = none ∧ e.createdKernel = none ∧ e.releasedKernel = none)
    (fun s evs0 => s.internalArgs.map InternalArg.buffer = evs0.filterMap Event.createdMem)
    args
    (fun a _ idx s evs0 hs => by
      have h1 := frame_prepareArgument_created env fuel kernel idx a s
      have h2 := frame_prepareArgument env fuel kernel idx a s
      refine frame_weaken (frame_both h1 h2) (fun e he => bindEvent_quiet he.2) ?_
      intro s1 evs _ hq
      show s1.internalArgs.map InternalArg.buffer = (evs0 ++ evs).filterMap Event.createdMem
      rw [hq.1, hs, List.filterMap_append])
    index st [] (by simp [hst])
  refine frame_weaken hl (fun _ _ => trivial) ?_
  intro s1 evs hp hq
  refine ⟨by simpa using hq, ?_, ?_, ?_⟩
  · exact filterMap_none evs (fun e he => (hp e he).1)
  · exact filterMap_none evs (fun e he => (hp e he).2.1)
  · exact filterMap_none evs (fun e he => (hp e he).2.2)

theorem frame_releaseArgs_exact (env : Env) :
    ∀ (l : List InternalArg),
      Frame (fun _ => True) (Processor.releaseArgs env l)
        (fun _ evs => evs = l.map (fun a => Event.releaseMemObject a.buffer))
  | [] => by
    unfold Processor.releaseArgs
    exact frame_pure _ rfl
  | a :: rest => by
    unfold Processor.releaseArgs
    refine frame_bind (Q := fun _ evs => evs = [Event.releaseMemObject a.buffer])
      (frame_call env _ trivial (fun _ => rfl)) ?_
    intro _ evs1 h1
    refine frame_weaken (frame_releaseArgs_exact env rest) (fun _ _ => trivial) ?_
    intro _ evs2 _ h2
    rw [h1, h2]
    rfl

theorem ledger_release_calls (l : List InternalArg) :
    (l.map (fun a => Event.releaseMemObject a.buffer)).filterMap Event.releasedMem
        = l.map InternalArg.buffer ∧
    (l.map (fun a => Event.releaseMemObject a.buffer)).filterMap Event.createdMem = [] ∧
    (l.map (fun a => Event.releaseMemObject a.buffer)).filterMap Event.createdKernel = [] ∧
    (l.map (fun a => Event.releaseMemObject a.buffer)).filterMap Event.releasedKernel = [] := by
  induction l with
  | nil => simp
  | cons a rest ih =>
    obtain ⟨h1, h2, h3, h4⟩ := ih
    simp [List.filterMap_cons, Event.releasedMem, Event.createdMem, Event.createdKernel,
      Event.releasedKernel, h1, h2, h3, h4]

theorem isRead_quiet {e : Event} (h : e.isRead = true) :
    e.createdMem = none ∧ e.releasedMem = none ∧ e.createdKernel = none ∧
      e.releasedKernel = none := by
  cases e <;> simp_all [Event.isRead, Event.createdMem, Event.releasedMem,
    Event.createdKernel, Event.releasedKernel]

/-- When the second half of `execute` ends normally it has released every
entry of `internalArgs` once, in order, and the kernel once. -/
theorem frame_dispatch_ledger (env : Env) (kernel : Nat) (st : BindState) :
    Frame (fun _ => True) (Processor.dispatch env kernel st)
      (fun _ evs => evs.filterMap Event.createdMem = [] ∧
        evs.filterMap Event.releasedMem = st.internalArgs.map InternalArg.buffer ∧
        evs.filterMap Event.createdKernel = [] ∧
        evs.filterMap Event.releasedKernel = [kernel]) := by
  unfold Processor.dispatch
  simp only [bind_eq, pure_eq]
  refine frame_bind (Q := fun _ evs => evs = [Event.enqueueNDRangeKernel kernel st.input.dim
    ((List.range st.input.dim).map st.input.sizes)])
    (frame_call env _ trivial (fun _ => rfl)) ?_
  intro _ evs1 h1
  refine frame_bind (Q := fun _ evs => evs = []) (frame_checkError _ (fun _ => rfl)) ?_
  intro _ evs2 h2
  refine frame_bind (Q := fun _ evs => ∀ e ∈ evs, e.isRead = true)
    (frame_weaken (frame_readOutput env st.input st.output) (fun _ _ => trivial)
      (fun _ _ hp _ => hp)) ?_
  intro _ evs3 h3
  refine frame_bind (Q := fun _ evs => evs = []) (frame_checkError _ (fun _ => rfl)) ?_
  intro _ evs4 h4
  refine frame_bind
    (Q := fun _ evs => evs = st.internalArgs.map (fun a => Event.releaseMemObject a.buffer))
    (frame_releaseArgs_exact env st.internalArgs) ?_
  intro _ evs5 h5
  refine frame_bind (Q := fun _ evs => evs = [Event.releaseKernel kernel])
    (frame_call env _ trivial (fun _ => rfl)) ?_
  intro _ evs6 h6
  refine frame_pure _ ?_
  obtain ⟨r1, r2, r3, r4⟩ := ledger_release_calls st.internalArgs
  have q1 := filterMap_none evs3 (fun e he => (isRead_quiet (h3 e he)).1)
  have q2 := filterMap_none evs3 (fun e he => (isRead_quiet (h3 e he)).2.1)
  have q3 := filterMap_none evs3 (fun e he => (isRead_quiet (h3 e he)).2.2.1)
  have q4 := filterMap_none evs3 (fun e he => (isRead_quiet (h3 e he)).2.2.2)
  subst h1 h2 h4 h5 h6
  simp [List.filterMap_append, List.filterMap_cons, q1, q2, q3, q4, r1, r2, r3, r4,
    Event.createdMem, Event.releasedMem, Event.createdKernel, Event.releasedKernel]

/-- Whenever `execute` returns normally, whatever the runtime has answered,
the memory objects released are exactly those created during the call, in
the same order, and the kernel released is the one created. -/
theorem execute_releases_on_return (env : Env) (fuel : Nat) (self : Processor)
    (name : String) (args : List KernelArg) :
    Frame (fun _ => True) (Processor.execute env fuel self name args)
      (fun _ evs => (ledger evs).releasedMem = (ledger evs).createdMem ∧
        (ledger evs).releasedKernels = (ledger evs).createdKernels ∧
        (ledger evs).createdKernels.length = 1) := by
  unfold Processor.execute
  simp only [bind_eq]
  refine frame_bind (Q := fun k evs => (k.2 = 0 → k.1 ≠ 0) ∧
    evs = [Event.createKernel self.program name k.1])
    (frame_create env _ (fun _ => trivial) (fun h st hh => ⟨hh, rfl⟩)) ?_
  intro k evs1 h1
  refine frame_bind (Q := fun _ evs => k.1 ≠ 0 ∧ evs = [])
    (frame_checkError _ (fun h => ⟨h1.1 h, rfl⟩)) ?_
  intro _ evs2 h2
  refine frame_bind (Q := fun st1 evs => st1.internalArgs.map InternalArg.buffer
      = evs.filterMap Event.createdMem ∧
    evs.filterMap Event.releasedMem = [] ∧ evs.filterMap Event.createdKernel = [] ∧
    evs.filterMap Event.releasedKernel = []) ?_ ?_
  · unfold Processor.prepareArguments
    simp only [bind_eq, pure_eq]
    refine frame_bind (frame_prepareLoop_created env fuel k.1 args 0 (initialState env) rfl) ?_
    intro st1 evs3 h3
    split
    · exact frame_throwError _
    · split
      · exact frame_throwError _
      · exact frame_pure _ (by simpa using h3)
  · intro st1 evs3 h3
    refine frame_weaken (frame_dispatch_ledger env k.1 st1) (fun _ _ => trivial) ?_
    intro _ evs4 _ h4
    obtain ⟨c1, c2, c3, c4⟩ := h3
    obtain ⟨d1, d2, d3, d4⟩ := h4
    obtain ⟨hk, he1⟩ := h1
    obtain ⟨hk1, he2⟩ := h2
    subst he1 he2
    simp [ledger, List.filterMap_append, List.filterMap_cons, c1, c2, c3, c4, d1, d2, d3, d4,
      Event.createdMem, Event.releasedMem, Event.createdKernel, Event.releasedKernel, hk1]

/-- The blur call of `main.cpp` returns normally, so the statement above is
not empty: three objects and one kernel are created and released. -/
theorem execute_releases_sample :
    (Processor.execute sampleEnv 2 sampleProcessor "blur" [imageIn, bufferStatic, imageOut]
      emptyWorld).1 = .ok () ∧
    ledger (Processor.execute sampleEnv 2 sampleProcessor "blur"
      [imageIn, bufferStatic, imageOut] emptyWorld).2.calls = ⟨[2, 5, 8], [2, 5, 8], [1], [1]⟩ := by
  decide!

/-! # The claims -/

/-! ## C1: the execution domain -/

/-- C1, the run that breaks it. With the OUTPUT image in front of the INPUT
image (which loads as 1 x 1), the output image is created from the extents
found in the never initialised `sizes` array, here 0 x 0, although the kernel
is enqueued over 1 x 1 and a 1 x 1 region is read back from that image. -/
theorem C1_output_before_input :
    loadImage 2 sampleEnv.uninit "in.ppm" (sampleEnv.file "in.ppm") = .ok onePixel ∧
    Processor.execute sampleEnv 2 sampleProcessor "blur" [imageOut, imageIn] emptyWorld
      = (.ok (),
         ⟨[.createKernel 11 "blur" 1,
           .createImage2D CL_MEM_WRITE_ONLY 0 0 none 2,
           .setKernelArg 1 0 8 (.mem 2),
           .createImage2D CL_MEM_READ_ONLY 1 1 none 4,
           .enqueueWriteImage 4 1 1 [1, 2, 3, 0],
           .setKernelArg 1 1 8 (.mem 4),
           .enqueueNDRangeKernel 1 2 [1, 1],
           .enqueueReadImage 2 1 1,
           .releaseMemObject 2,
           .releaseMemObject 4,
           .releaseKernel 1],
          [("out.ppm", [80, 54, 10, 49, 32, 49, 10, 50, 53, 53, 10, 9, 9, 9])]⟩) := by
  decide!

/-- What holds of the domain derivation. When every runtime call succeeds,
every image loads, the list has one INPUT argument `inp` and some OUTPUT
argument that is a BUFFER or an IMAGE: if `inp` is a BUFFER of size N the
kernel is enqueued with dimensionality 1 and extent N; if `inp` is an IMAGE
that loads as W x H the kernel is enqueued with dimensionality 2 and extents
(W, H), and, provided no OUTPUT image stands before `inp`, every write-only
image the call creates is W x H whatever the size field of its descriptor,
one being created when an OUTPUT image stands after `inp`. -/
theorem domain_from_input (env : Env) (fuel : Nat) (self : Processor) (name : String)
    (pre post : List KernelArg) (inp : KernelArg) (w : World)
    (hs : ∀ k, env.status k = 0)
    (hl : ∀ a ∈ pre ++ inp :: post, Loadable env fuel a)
    (hpre : ∀ a ∈ pre, a.direction ≠ .INPUT) (hpost : ∀ a ∈ post, a.direction ≠ .INPUT)
    (hin : inp.direction = .INPUT)
    (hout : ∃ a ∈ pre ++ inp :: post, a.direction = .OUTPUT ∧ a.type ≠ .RAW) :
    (inp.type = .BUFFER →
      Event.enqueueNDRangeKernel (w.calls.length + 1) 1 [inp.size]
        ∈ (Processor.execute env fuel self name (pre ++ inp :: post) w).2.calls) ∧
    (inp.type = .IMAGE → ∀ img rgba,
      loadImage fuel env.uninit inp.data (env.file inp.data) = .ok img →
      RGBtoRGBA img = some rgba →
      Event.enqueueNDRangeKernel (w.calls.length + 1) 2 [img.width, img.height]
        ∈ (Processor.execute env fuel self name (pre ++ inp :: post) w).2.calls ∧
      (img.width < UINT_SIZE → img.height < UINT_SIZE →
        (∀ a ∈ pre, ¬ (a.direction = .OUTPUT ∧ a.type = .IMAGE)) →
        ∃ evs, (Processor.execute env fuel self name (pre ++ inp :: post) w).2.calls
            = w.calls ++ evs ∧
          (∀ e ∈ evs, OutputImageSized img.width img.height e) ∧
          ((∃ a ∈ post, a.direction = .OUTPUT ∧ a.type = .IMAGE) →
            ∃ hd, Event.createImage2D CL_MEM_WRITE_ONLY img.width img.height none hd
              ∈ evs))) := by
  obtain ⟨st1, w2, hloop, hexec⟩ :=
    execute_success env fuel self name (pre ++ inp :: post) w hs hl
  have hbuf : st1.output.buffer ≠ 0 := by
    obtain ⟨_, _, _, hq⟩ := loop_output_set env fuel (w.calls.length + 1) (pre ++ inp :: post)
      hout 0 (initialState env)
      ⟨w.calls ++ [.createKernel self.program name (w.calls.length + 1)], w.files⟩
    exact hq st1 (by rw [hloop])
  refine ⟨?_, ?_⟩
  · intro ht
    obtain ⟨_, _, _, hq⟩ := loop_buffer_domain env fuel (w.calls.length + 1) pre post inp
      hpre hpost hin ht 0 (initialState env)
      ⟨w.calls ++ [.createKernel self.program name (w.calls.length + 1)], w.files⟩
    obtain ⟨hdim, hsz⟩ := hq st1 (by rw [hloop])
    obtain ⟨evs, hc, _⟩ := dispatch_calls env (w.calls.length + 1) st1 w2
    rw [hexec]
    simp only [hdim, hbuf, if_false, one_ne_zero]
    rw [hc, hdim]
    simp [List.range_succ, hsz]
  · intro ht img rgba h1 h2
    obtain ⟨_, _, _, hq⟩ := loop_image_domain env fuel (w.calls.length + 1) pre post inp
      img rgba hpre hpost hin ht h1 h2 0 (initialState env)
      ⟨w.calls ++ [.createKernel self.program name (w.calls.length + 1)], w.files⟩
    obtain ⟨hdim, hs0, hs1⟩ := hq st1 (by rw [hloop])
    obtain ⟨evs, hc, htail⟩ := dispatch_calls env (w.calls.length + 1) st1 w2
    have hexec1 : Processor.execute env fuel self name (pre ++ inp :: post) w
        = Processor.dispatch env (w.calls.length + 1) st1 w2 := by
      rw [hexec]
      simp [hdim, hbuf]
    refine ⟨?_, ?_⟩
    · rw [hexec1, hc, hdim]
      simp [List.range_succ, hs0, hs1]
    · intro hW hH hno
      obtain ⟨evsL, hcl, hpl, hql⟩ := loop_output_images env fuel (w.calls.length + 1) pre
        post inp img rgba hpost hin ht h1 h2 hW hH hno 0 (initialState env)
        ⟨w.calls ++ [.createKernel self.program name (w.calls.length + 1)], w.files⟩
      rw [hloop] at hcl hql
      simp only at hcl
      refine ⟨Event.createKernel self.program name (w.calls.length + 1) :: (evsL ++
        Event.enqueueNDRangeKernel (w.calls.length + 1) st1.input.dim
          ((List.range st1.input.dim).map st1.input.sizes) :: evs), ?_, ?_, ?_⟩
      · rw [hexec1, hc, hcl]
        simp
      · intro e he
        simp only [List.mem_append, List.mem_cons] at he
        rcases he with he | he | he | he
        · intro _ _ _ _ hc1
          rw [he] at hc1
          cases hc1
        · exact hpl e he
        · intro _ _ _ _ hc1
          rw [he] at hc1
          cases hc1
        · have ht1 := htail e he
          intro _ _ _ _ hc1
          subst hc1
          simp [Event.isTail] at ht1
      · intro hex
        obtain ⟨hd, hm⟩ := hql st1 rfl hex
        exact ⟨hd, by simp [hm]⟩

theorem sample_loadable (a : KernelArg) (ha : a ∈ [imageIn, bufferStatic, imageOut, bufferIn]) :
    Loadable sampleEnv 2 a := by
  simp only [List.mem_cons, List.mem_singleton, List.not_mem_nil, or_false] at ha
  rcases ha with h | h | h | h
  · subst h
    intro _ _
    exact ⟨onePixel, ⟨[1, 2, 3, 0], 1, 1⟩, by decide!, by decide⟩
  · subst h
    intro ht
    exact absurd ht (by decide)
  · subst h
    intro _ hd
    exact absurd rfl hd
  · subst h
    intro ht
    exact absurd ht (by decide)

/-- The blur call of `main.cpp` on a one-pixel image: the kernel is enqueued
over 1 x 1, and the one write-only image of the call is created 1 x 1. -/
theorem domain_from_input_sample :
    Event.enqueueNDRangeKernel 1 2 [1, 1]
      ∈ (Processor.execute sampleEnv 2 sampleProcessor "blur"
          ([] ++ imageIn :: [bufferStatic, imageOut]) emptyWorld).2.calls ∧
    ∃ evs, (Processor.execute sampleEnv 2 sampleProcessor "blur"
          ([] ++ imageIn :: [bufferStatic, imageOut]) emptyWorld).2.calls
        = emptyWorld.calls ++ evs ∧
      (∀ e ∈ evs, OutputImageSized 1 1 e) ∧
      ∃ hd, Event.createImage2D CL_MEM_WRITE_ONLY 1 1 none hd ∈ evs := by
  have h := (domain_from_input sampleEnv 2 sampleProcessor "blur" [] [bufferStatic, imageOut]
      imageIn emptyWorld (fun _ => rfl)
      (fun a ha => sample_loadable a (by
        simp only [List.nil_append, List.mem_cons, List.mem_singleton, List.not_mem_nil,
          or_false] at ha
        simp only [List.mem_cons, List.mem_singleton, List.not_mem_nil, or_false]
        tauto))
      (fun a ha => by simp at ha)
      (fun a ha => by
        simp only [List.mem_cons, List.mem_singleton, List.not_mem_nil, or_false] at ha
        rcases ha with h | h <;> subst h <;> decide)
      rfl ⟨imageOut, by simp, rfl, by decide⟩).2 rfl onePixel ⟨[1, 2, 3, 0], 1, 1⟩
      (by decide!) (by decide)
  obtain ⟨evs, hc, hsz, hex⟩ := h.2 (by decide) (by decide) (fun a ha => by simp at ha)
  exact ⟨h.1, evs, hc, hsz, hex ⟨imageOut, by simp, rfl, rfl⟩⟩

/-- An OUTPUT image in front of the INPUT image and another one behind it:
the first is created from the uninitialised extents, the second 1 x 1. -/
theorem output_on_both_sides_sample :
    (Processor.execute sampleEnv 2 sampleProcessor "blur" [imageOut, imageIn, imageOut]
      emptyWorld).2.calls
      = [.createKernel 11 "blur" 1,
         .createImage2D CL_MEM_WRITE_ONLY 0 0 none 2,
         .setKernelArg 1 0 8 (.mem 2),
         .createImage2D CL_MEM_READ_ONLY 1 1 none 4,
         .enqueueWriteImage 4 1 1 [1, 2, 3, 0],
         .setKernelArg 1 1 8 (.mem 4),
         .createImage2D CL_MEM_WRITE_ONLY 1 1 none 7,
         .setKernelArg 1 2 8 (.mem 7),
         .enqueueNDRangeKernel 1 2 [1, 1],
         .enqueueReadImage 7 1 1,
         .releaseMemObject 2,
         .releaseMemObject 4,
         .releaseMemObject 7,
         .releaseKernel 1] := by
  decide!

/-! ## Missing input and missing output -/

/-- Without an INPUT argument that is a BUFFER or an IMAGE, a run in which
every runtime call succeeds and every image loads ends with the
missing-input error. -/
theorem execute_missing_input (env : Env) (fuel : Nat) (self : Processor) (name : String)
    (args : List KernelArg) (w : World) (hs : ∀ k, env.status k = 0)
    (hl : ∀ a ∈ args, Loadable env fuel a)
    (h : ∀ a ∈ args, a.direction = .INPUT → a.type = .RAW) :
    (Processor.execute env fuel self name args w).1
      = .throw (.msg "No input parameter specified") := by
  obtain ⟨st1, w2, hloop, hexec⟩ := execute_success env fuel self name args w hs hl
  obtain ⟨_, _, _, hq⟩ := loop_input_unchanged env fuel (w.calls.length + 1) args h 0
    (initialState env)
    ⟨w.calls ++ [.createKernel self.program name (w.calls.length + 1)], w.files⟩
  have hin : st1.input = (initialState env).input := hq st1 (by rw [hloop])
  have hdim : st1.input.dim = 0 := by rw [hin]; rfl
  rw [hexec]
  simp [hdim]

/-- With a recorded domain but without an OUTPUT argument that is a BUFFER
or an IMAGE, such a run ends with the missing-output error. -/
theorem execute_missing_output (env : Env) (fuel : Nat) (self : Processor) (name : String)
    (args : List KernelArg) (w : World) (hs : ∀ k, env.status k = 0)
    (hl : ∀ a ∈ args, Loadable env fuel a)
    (hi : ∃ a ∈ args, a.direction = .INPUT ∧ a.type ≠ .RAW)
    (h : ∀ a ∈ args, a.direction = .OUTPUT → a.type = .RAW) :
    (Processor.execute env fuel self name args w).1
      = .throw (.msg "No output parameter specified") := by
  obtain ⟨st1, w2, hloop, hexec⟩ := execute_success env fuel self name args w hs hl
  obtain ⟨_, _, _, hq⟩ := loop_output_unchanged env fuel (w.calls.length + 1) args h 0
    (initialState env)
    ⟨w.calls ++ [.createKernel self.program name (w.calls.length + 1)], w.files⟩
  have hout : st1.output = (initialState env).output := hq st1 (by rw [hloop])
  have hbuf : st1.output.buffer = 0 := by rw [hout]; rfl
  obtain ⟨_, _, _, hq2⟩ := loop_input_set env fuel (w.calls.length + 1) args hi 0
    (initialState env)
    ⟨w.calls ++ [.createKernel self.program name (w.calls.length + 1)], w.files⟩
  have hdim : st1.input.dim ≠ 0 := hq2 st1 (by rw [hloop])
  rw [hexec]
  simp [hdim, hbuf]

/-! ## C2: a missing input -/

/-- C2, the run that breaks it. A list with one STATIC buffer and no INPUT
argument: `execute` raises the missing-input error, and at that moment the
kernel (handle 1) and the buffer (handle 2) exist and no release call has
been made. -/
theorem C2_missing_input_leaks :
    Processor.execute sampleEnv 0 sampleProcessor "scale" [bufferStatic] emptyWorld
      = (.throw (.msg "No input parameter specified"),
         ⟨[.createKernel 11 "scale" 1,
           .createBuffer CL_MEM_READ_ONLY 16 none 2,
           .enqueueWriteBuffer 2 16 "filter",
           .setKernelArg 1 0 8 (.mem 2)], []⟩) := by
  decide!

/-! ## C3: a missing output -/

/-- C3, counterexample. The empty list has neither INPUT nor OUTPUT; the
error raised is the missing-input one, not the missing-output one. -/
theorem C3_no_input_no_output :
    (Processor.execute sampleEnv 0 sampleProcessor "scale" [] emptyWorld).1
      = .throw (.msg "No input parameter specified") ∧
    (Processor.execute sampleEnv 0 sampleProcessor "scale" [] emptyWorld).1
      ≠ .throw (.msg "No output parameter specified") := by
  decide!

/-- C3, amended. When every runtime call succeeds and every image loads, a
list without OUTPUT argument makes `execute` fail with the missing-output
error if it has an INPUT argument that is a BUFFER or an IMAGE, and with the
missing-input error if it has none. -/
theorem C3_missing_output (env : Env) (fuel : Nat) (self : Processor) (name : String)
    (args : List KernelArg) (w : World) (hs : ∀ k, env.status k = 0)
    (hl : ∀ a ∈ args, Loadable env fuel a)
    (hout : ∀ a ∈ args, a.direction ≠ .OUTPUT) :
    ((∃ a ∈ args, a.direction = .INPUT ∧ a.type ≠ .RAW) →
      (Processor.execute env fuel self name args w).1
        = .throw (.msg "No output parameter specified")) ∧
    ((∀ a ∈ args, a.direction = .INPUT → a.type = .RAW) →
      (Processor.execute env fuel self name args w).1
        = .throw (.msg "No input parameter specified")) :=
  ⟨fun hi => execute_missing_output env fuel self name args w hs hl hi
      (fun a ha hd => absurd hd (hout a ha)),
   fun hi => execute_missing_input env fuel self name args w hs hl hi⟩

/-- C3, witness: an input buffer and a static buffer, no output. -/
theorem C3_missing_output_witness :
    (Processor.execute sampleEnv 2 sampleProcessor "scale" [bufferIn, bufferStatic]
      emptyWorld).1 = .throw (.msg "No output parameter specified") :=
  (C3_missing_output sampleEnv 2 sampleProcessor "scale" [bufferIn, bufferStatic] emptyWorld
    (fun _ => rfl)
    (fun a ha => sample_loadable a (by
      simp only [List.mem_cons, List.mem_singleton, List.not_mem_nil, or_false] at ha
      simp only [List.mem_cons, List.mem_singleton, List.not_mem_nil, or_false]
      tauto))
    (fun a ha => by
      simp only [List.mem_cons, List.mem_singleton, List.not_mem_nil, or_false] at ha
      rcases ha with h | h <;> subst h <;> decide)).1
    ⟨bufferIn, by simp, rfl, by decide⟩

/-! ## C4: release of the per-call objects -/

/-- C4, the run that breaks it. The dispatch call returns an error status:
`execute` raises, and the kernel (handle 1) and the two buffers (handles 2
and 4) created during the call are never released. -/
theorem C4_failed_dispatch_leaks :
    Processor.execute failingEnv 0 sampleProcessor "scale" [bufferIn, bufferOut] emptyWorld
      = (.throw (.openCL (-5)),
         ⟨[.createKernel 11 "scale" 1,
           .createBuffer (CL_MEM_READ_ONLY ||| CL_MEM_COPY_HOST_PTR) 20 (some "input") 2,
           .setKernelArg 1 0 8 (.mem 2),
           .createBuffer (CL_MEM_WRITE_ONLY ||| CL_MEM_COPY_HOST_PTR) 20 (some "output") 4,
           .setKernelArg 1 1 8 (.mem 4),
           .enqueueNDRangeKernel 1 1 [20]], []⟩) := by
  decide!

/-! ## C5: the number of inputs and outputs -/

/-- C5, counterexample. A list with two INPUT buffers is accepted: the
kernel is enqueued, over the extent of the second one. -/
theorem C5_two_inputs_accepted :
    Processor.execute sampleEnv 0 sampleProcessor "scale"
        [⟨"first", 4, .BUFFER, true, .INPUT⟩, bufferIn, bufferOut] emptyWorld
      = (.ok (),
         ⟨[.createKernel 11 "scale" 1,
           .createBuffer (CL_MEM_READ_ONLY ||| CL_MEM_COPY_HOST_PTR) 4 (some "first") 2,
           .setKernelArg 1 0 8 (.mem 2),
           .createBuffer (CL_MEM_READ_ONLY ||| CL_MEM_COPY_HOST_PTR) 20 (some "input") 4,
           .setKernelArg 1 1 8 (.mem 4),
           .createBuffer (CL_MEM_WRITE_ONLY ||| CL_MEM_COPY_HOST_PTR) 20 (some "output") 6,
           .setKernelArg 1 2 8 (.mem 6),
           .enqueueNDRangeKernel 1 1 [20],
           .enqueueReadBuffer 6 20 "output",
           .releaseMemObject 2,
           .releaseMemObject 4,
           .releaseMemObject 6,
           .releaseKernel 1], []⟩) := by
  decide!

/-- C5, amended. A list with no INPUT argument or with no OUTPUT argument
never gets its kernel enqueued and never makes `execute` return normally,
whatever the runtime answers; when every runtime call succeeds and every
image loads, `execute` raises the missing-input or the missing-output
error. Nothing is said about lists with several INPUT or OUTPUT arguments:
they are accepted. -/
theorem C5_missing_direction (env : Env) (fuel : Nat) (self : Processor) (name : String)
    (args : List KernelArg) (w : World)
    (h : (∀ a ∈ args, a.direction ≠ .INPUT) ∨ (∀ a ∈ args, a.direction ≠ .OUTPUT)) :
    (∃ evs, (Processor.execute env fuel self name args w).2.calls = w.calls ++ evs ∧
      (∀ e ∈ evs, e.isDispatch = false) ∧
      ∀ u, (Processor.execute env fuel self name args w).1 ≠ .ok u) ∧
    ((∀ k, env.status k = 0) → (∀ a ∈ args, Loadable env fuel a) →
      (Processor.execute env fuel self name args w).1
          = .throw (.msg "No input parameter specified") ∨
        (Processor.execute env fuel self name args w).1
          = .throw (.msg "No output parameter specified")) := by
  refine ⟨?_, ?_⟩
  · obtain ⟨evs, hc, hp, hq⟩ := frame_execute_missing env fuel self name args h w
    exact ⟨evs, hc, hp, fun u hu => hq u hu⟩
  · intro hs hl
    by_cases hi : ∀ a ∈ args, a.direction = .INPUT → a.type = .RAW
    · exact Or.inl (execute_missing_input env fuel self name args w hs hl hi)
    · have hi1 : ∃ a ∈ args, a.direction = .INPUT ∧ a.type ≠ .RAW := by
        by_contra hne
        apply hi
        intro a ha hd
        by_contra ht
        exact hne ⟨a, ha, hd, ht⟩
      rcases h with h | h
      · obtain ⟨a, ha, hd, _⟩ := hi1
        exact absurd hd (h a ha)
      · exact Or.inr (execute_missing_output env fuel self name args w hs hl hi1
          (fun a ha hd => absurd hd (h a ha)))

/-- C5, witness: the list that holds only the output buffer. -/
theorem C5_missing_direction_witness :
    ∃ evs, (Processor.execute failingEnv 0 sampleProcessor "scale" [bufferOut]
        emptyWorld).2.calls = emptyWorld.calls ++ evs ∧
      (∀ e ∈ evs, e.isDispatch = false) ∧
      ∀ u, (Processor.execute failingEnv 0 sampleProcessor "scale" [bufferOut]
        emptyWorld).1 ≠ .ok u :=
  (C5_missing_direction failingEnv 0 sampleProcessor "scale" [bufferOut] emptyWorld
    (Or.inl (fun a ha => by
      simp only [List.mem_singleton] at ha
      subst ha
      decide))).1

/-! ## C6: construction with an unreadable kernel file -/

/-- C6, counterexample. One platform, two devices, no file `missing.cl`:
construction fails with the kernel-file error, but `clCreateContext` has
been called and has returned context 5 by then. -/
theorem C6_context_created_first :
    Processor.new sampleEnv "missing.cl" .All_Devices "" emptyWorld
      = (.throw (.msg "Cannot find kernel file 'missing.cl'"),
         ⟨[.getPlatformIDs, .getPlatformIDs,
           .getDeviceIDs 1 CL_DEVICE_TYPE_ALL, .getDeviceIDs 1 CL_DEVICE_TYPE_ALL,
           .createContext 1 [5, 6] 5], []⟩) := by
  decide!

/-- C6, amended. When the kernel source cannot be opened, the runtime
reports a platform with at least two devices of the requested class and its
calls succeed, construction fails with the kernel-file error after exactly
five runtime calls: the platform and device queries and `clCreateContext`,
which has returned a context; no `clCreateProgramWithSource` and no
`clCreateCommandQueue` call has been made. -/
theorem C6_kernel_file_missing (env : Env) (path : String) (deviceType : DeviceType)
    (options : String) (p : Nat) (ps : List Nat) (d0 d1 : Nat) (ds : List Nat)
    (hs : ∀ k, env.status k = 0) (hf : env.file path = none)
    (hp : env.platforms = p :: ps)
    (hd : env.devices p (Processor.LookupDevice deviceType) = d0 :: d1 :: ds) :
    Processor.new env path deviceType options emptyWorld
      = (.throw (.msg ("Cannot find kernel file '" ++ path ++ "'")),
         ⟨[.getPlatformIDs, .getPlatformIDs,
           .getDeviceIDs p (Processor.LookupDevice deviceType),
           .getDeviceIDs p (Processor.LookupDevice deviceType),
           .createContext p (d0 :: d1 :: ds) 5], []⟩) := by
  simp [Processor.new, Processor.init, Processor.loadPlateforms, Processor.loadDevices,
    Processor.createContext, Processor.createProgram, Processor.loadKernel,
    Processor.throwError, Processor.checkError, vectorAt, bind_eq, pure_eq, Proc.bind,
    Proc.pure, call, create, emptyWorld, hs, hf, hp, hd]

/-- C6, witness: a GPU processor on a file that does not exist. -/
theorem C6_kernel_file_missing_witness :
    Processor.new sampleEnv "absent.cl" .GPU_Devices "" emptyWorld
      = (.throw (.msg ("Cannot find kernel file '" ++ "absent.cl" ++ "'")),
         ⟨[.getPlatformIDs, .getPlatformIDs,
           .getDeviceIDs 1 (Processor.LookupDevice .GPU_Devices),
           .getDeviceIDs 1 (Processor.LookupDevice .GPU_Devices),
           .createContext 1 [5, 6] 5], []⟩) :=
  C6_kernel_file_missing sampleEnv "absent.cl" .GPU_Devices "" 1 [] 5 6 []
    (fun _ => rfl) (by decide) rfl rfl

/-! ## C7: saving and loading a PPM file -/

/-- C7, the input that breaks it. A 65536 x 65536 image with its
3 * 2^32 pixel bytes is saved and loaded again: the header is read back, but
`width * height * 3` wraps to 0 in `unsigned int`, so the image returned has
an empty pixel buffer. -/
theorem C7_wide_image_truncated (fuel : Nat) (u : Uninit) (path : String) :
    (List.replicate 12884901888 0).length = 65536 * 65536 * 3 ∧
    loadImage (fuel + 2) u path
        (some (ppmBytes ⟨List.replicate 12884901888 0, 65536, 65536⟩))
      = .ok ⟨[], 65536, 65536⟩ :=
  ⟨by rw [List.length_replicate], loadImage_ppmBytes_wrap fuel u path _⟩

/-! ## C8: unsupported files -/

/-- C8, the input that breaks it. On the file "P6\n", which has the magic
and nothing else, the comment-skipping loop never ends, whatever the fuel:
no error is raised. -/
theorem C8_header_only_diverges (fuel : Nat) (u : Uninit) (path : String) :
    loadImage fuel u path (some [80, 54, 10]) = .diverge := by
  have e1 : extractString (IStream.open [80, 54, 10]) [] = (⟨[10], false, false⟩, magicP6) := by
    decide
  have e2 : skipComments fuel ⟨[10], false, false⟩ magicP6 = none := by
    cases fuel with
    | zero => rfl
    | succ n =>
      have g1 : getline ⟨[10], false, false⟩ magicP6 = (⟨[], false, false⟩, []) := by decide
      cases n with
      | zero => simp only [skipComments, g1]
      | succ m =>
        have g2 : getline ⟨[], false, false⟩ [] = (⟨[], true, true⟩, []) := by decide
        simp only [skipComments, g1, g2]
        exact skipComments_stuck m ⟨[], true, true⟩ [] rfl (Or.inl rfl)
  simp only [loadImage, e1, ne_eq, not_true_eq_false, if_false, e2]

/-- A file that ends after the two sizes: `maxColor` is never written, and
when the memory it occupies happens to hold 255 an image is returned. -/
theorem loadImage_reads_uninitialised :
    loadImage 2 ⟨0, 0, 255⟩ "x" (some [80, 54, 10, 49, 32, 49]) = .ok ⟨[0, 0, 0], 1, 1⟩ := by
  decide

/-! ## C9 and C10: the pixel layouts -/

/-- C9. For an image whose pixel buffer length is a multiple of 3,
`RGBAtoRGB(RGBtoRGBA(img))` is defined and equals `img`. -/
theorem C9_rgb_roundtrip (img : Image) (h : img.pixel.length % 3 = 0) :
    (RGBtoRGBA img).bind RGBAtoRGB = some img := by
  obtain ⟨out, e1, e2⟩ := rgb_rgba_pixels img.pixel h
  simp [RGBtoRGBA, RGBAtoRGB, e1, e2]

/-- C9, witness: two pixels. -/
theorem C9_rgb_roundtrip_witness :
    [1, 2, 3, 4, 5, 6].length % 3 = 0 ∧
    (RGBtoRGBA ⟨[1, 2, 3, 4, 5, 6], 2, 1⟩).bind RGBAtoRGB = some ⟨[1, 2, 3, 4, 5, 6], 2, 1⟩ :=
  ⟨by decide, C9_rgb_roundtrip ⟨[1, 2, 3, 4, 5, 6], 2, 1⟩ (by decide)⟩

/-- C10. For an image whose pixel buffer length is a multiple of 4,
`RGBtoRGBA(RGBAtoRGB(img))` is defined, has the width, the height and the
buffer length of `img`, the bytes of `img` at every index `i` with
`i mod 4` in {0, 1, 2} and the byte 0 at every index with `i mod 4 = 3`. -/
theorem C10_rgba_roundtrip (img : Image) (h : img.pixel.length % 4 = 0) :
    ∃ r, (RGBAtoRGB img).bind RGBtoRGBA = some r ∧ r.width = img.width ∧
      r.height = img.height ∧ r.pixel.length = img.pixel.length ∧
      ∀ i, i < img.pixel.length →
        r.pixel[i]? = if i % 4 = 3 then some 0 else img.pixel[i]? := by
  obtain ⟨mid, out, e1, e2, e3, e4⟩ := rgba_rgb_pixels img.pixel h
  exact ⟨⟨out, img.width, img.height⟩, by simp [RGBtoRGBA, RGBAtoRGB, e1, e2], rfl, rfl, e3, e4⟩

/-- C10, witness: two pixels with non-zero fourth bytes. -/
theorem C10_rgba_roundtrip_witness :
    [1, 2, 3, 4, 5, 6, 7, 8].length % 4 = 0 ∧
    ∃ r, (RGBAtoRGB ⟨[1, 2, 3, 4, 5, 6, 7, 8], 2, 1⟩).bind RGBtoRGBA = some r ∧
      r.width = 2 ∧ r.height = 1 ∧ r.pixel.length = 8 ∧
      ∀ i, i < 8 → r.pixel[i]? = if i % 4 = 3 then some 0 else [1, 2, 3, 4, 5, 6, 7, 8][i]? :=
  ⟨by decide, C10_rgba_roundtrip ⟨[1, 2, 3, 4, 5, 6, 7, 8], 2, 1⟩ (by decide)⟩

/-! ## C11: the indices the constructor selects -/

/-- The constructor is `init` at the indices `constructorPlatform` and
`constructorDevice`. -/
theorem new_eq_init (env : Env) (kernelPath : String) (deviceType : DeviceType)
    (kernelArgs : String) :
    Processor.new env kernelPath deviceType kernelArgs
      = Processor.init env
          ⟨kernelPath, kernelArgs, Processor.LookupDevice deviceType, [], 0, [], 0, 0, 0, 0⟩
          constructorPlatform constructorDevice :=
  rfl

/-- The platform index is in bounds as soon as there is a platform; the
device index is in bounds exactly when there are two devices or more. -/
theorem constructor_indices (platforms devices : List Nat) :
    (platforms ≠ [] → constructorPlatform < platforms.length) ∧
    (constructorDevice < devices.length ↔ 2 ≤ devices.length) := by
  refine ⟨?_, ?_⟩
  · intro h
    cases platforms with
    | nil => exact absurd rfl h
    | cons p ps => simp [constructorPlatform]
  · simp only [constructorDevice]
    omega

/-- With one platform and exactly one device of the requested class, and
every runtime call succeeding, construction reads `_devices[1]` past the end
of the device list, right after the two device queries. -/
theorem new_one_device (env : Env) (path : String) (deviceType : DeviceType)
    (options : String) (p : Nat) (ps : List Nat) (d : Nat)
    (hs : ∀ k, env.status k = 0) (hp : env.platforms = p :: ps)
    (hd : env.devices p (Processor.LookupDevice deviceType) = [d]) :
    Processor.new env path deviceType options emptyWorld
      = (.undefined,
         ⟨[.getPlatformIDs, .getPlatformIDs,
           .getDeviceIDs p (Processor.LookupDevice deviceType),
           .getDeviceIDs p (Processor.LookupDevice deviceType)], []⟩) := by
  simp [Processor.new, Processor.init, Processor.loadPlateforms, Processor.loadDevices,
    Processor.throwError, vectorAt, liftRes, bind_eq, pure_eq, Proc.bind, Proc.pure, call,
    emptyWorld, hs, hp, hd]

/-- With two devices or more, a readable kernel file and every runtime call
succeeding, construction ends normally and selects the first platform and
the second device. -/
theorem new_two_devices (env : Env) (path : String) (deviceType : DeviceType)
    (options : String) (p : Nat) (ps : List Nat) (d0 d1 : Nat) (ds : List Nat)
    (source : List Nat) (hs : ∀ k, env.status k = 0) (hf : env.file path = some source)
    (hp : env.platforms = p :: ps)
    (hd : env.devices p (Processor.LookupDevice deviceType) = d0 :: d1 :: ds) :
    (Processor.new env path deviceType options emptyWorld).1
      = .ok ⟨path, options, Processor.LookupDevice deviceType, p :: ps, p, d0 :: d1 :: ds, d1,
          5, 6, 8⟩ := by
  simp [Processor.new, Processor.init, Processor.loadPlateforms, Processor.loadDevices,
    Processor.createContext, Processor.createProgram, Processor.loadKernel,
    Processor.createCommandQueue, Processor.throwError, Processor.checkError, vectorAt,
    bind_eq, pure_eq, Proc.bind, Proc.pure, call, create, emptyWorld, hs, hf, hp, hd]

/-- C11, the runtime that breaks it. One platform and exactly one device of
the requested class are reported and the kernel file is readable: the
platform index 0 is in bounds, the device index 1 is not smaller than the
length 1 of the device list, and construction reads `_devices[1]` past the
end. -/
theorem C11_one_device_out_of_bounds :
    oneDeviceEnv.platforms.length = 1 ∧
    (oneDeviceEnv.devices 1 (Processor.LookupDevice .All_Devices)).length = 1 ∧
    constructorPlatform < oneDeviceEnv.platforms.length ∧
    ¬ constructorDevice < (oneDeviceEnv.devices 1 (Processor.LookupDevice .All_Devices)).length ∧
    Processor.new oneDeviceEnv "kernel.cl" .All_Devices "" emptyWorld
      = (.undefined,
         ⟨[.getPlatformIDs, .getPlatformIDs,
           .getDeviceIDs 1 CL_DEVICE_TYPE_ALL, .getDeviceIDs 1 CL_DEVICE_TYPE_ALL], []⟩) := by
  decide!

/-! ## C12: termination of `loadImage` -/

/-- C12, the inputs that break it. On a file that holds the magic, a
newline and then only empty lines (none, one or more), the comment-skipping
loop never ends, whatever the fuel: `loadImage` neither returns an image nor
raises an error. -/
theorem C12_empty_lines_diverge (fuel : Nat) (u : Uninit) (path : String) (k : Nat) :
    loadImage fuel u path (some (80 :: 54 :: 10 :: List.replicate k 10)) = .diverge := by
  have e1 : extractString (IStream.open (80 :: 54 :: 10 :: List.replicate k 10)) []
      = (⟨List.replicate (k + 1) 10, false, false⟩, magicP6) := by
    simp [extractString, IStream.sentry, IStream.open, IStream.good, List.dropWhile,
      List.takeWhile, isspace, magicP6, List.replicate_succ]
  rw [loadImage_diverge_iff, e1]
  exact ⟨rfl, skipComments_newlines (k + 1) fuel magicP6⟩

/-- A comment line that ends the file without a newline also keeps the loop
running. -/
theorem loadImage_open_comment_diverges (fuel : Nat) (u : Uninit) (path : String) :
    loadImage fuel u path (some [80, 54, 10, 35, 99]) = .diverge := by
  have h : loadImage 7 u path (some [80, 54, 10, 35, 99]) = .diverge := by
    rw [loadImage_diverge_iff]
    decide
  exact loadImage_enough 7 u path [80, 54, 10, 35, 99] (by decide) h fuel

end ProcCL
